import Mathlib

/-!
Shallow embedding of the AI Shorts Studio job orchestrator and rendering
engine (server/videoWorker.ts, server/videoRenderer.ts, server/routes.ts,
and the storage layer) together with proofs about the claims of the
specification.  Machine time is abstracted to a single rational clock value
carried in the state; external services (AI generators, ffmpeg, ffprobe,
object storage) are abstracted as oracles supplying their outcomes, while
all control flow, guards, status updates and arithmetic are translated
directly from the TypeScript source.
-/

deriving instance DecidableEq for Except

namespace ShortsStudio

/-! ## Enumerations from shared/schema.ts -/

/-- The five pipeline stage identities (source stepTypes: script,
assets_visual, assets_audio, video, caption). -/
inductive StepType where
  | script
  | visualAssets
  | audioAssets
  | video
  | caption
  deriving DecidableEq, Repr

/-- JobStep statuses. -/
inductive StepStatus where
  | queued
  | running
  | completed
  | failed
  deriving DecidableEq, Repr

/-- Job statuses (source strings: queued, running, generating_script,
generating_assets, rendering_video, generating_caption, completed, failed). -/
inductive JobStatus where
  | queued
  | running
  | generatingScript
  | generatingAssets
  | renderingVideo
  | generatingCaption
  | completed
  | failed
  deriving DecidableEq, Repr

/-- One scene of the script (sceneSchema in shared/schema.ts, plus the
audioDurationSeconds field written by the worker). -/
structure Scene where
  index : Nat
  startTime : ℚ
  endTime : ℚ
  textOverlay : Option String
  voiceSegmentText : Option String
  backgroundPrompt : Option String
  backgroundAssetUrl : Option String
  audioAssetUrl : Option String
  audioDurationSeconds : Option ℚ
  deriving DecidableEq, Repr

/-- The slice of jobSettingsSchema the worker reads. -/
structure JobSettings where
  contentType : String
  scenesPerMinute : Option Nat
  stylePrompt : Option String
  voiceModel : Option String
  subtitlesEnabled : Bool
  deriving DecidableEq, Repr

/-- A row of the jobs table (shared/schema.ts).  Timestamps are rationals. -/
structure Job where
  title : String
  contentType : String
  status : JobStatus
  settings : JobSettings
  scriptText : Option String
  scenes : Option (List Scene)
  caption : Option String
  hashtags : Option (List String)
  videoUrl : Option String
  thumbnailUrl : Option String
  durationSeconds : Option ℚ
  progressPercent : Int
  etaSeconds : Option ℚ
  errorMessage : Option String
  lockedBy : Option String
  lockedAt : Option ℚ
  leaseExpiresAt : Option ℚ
  lastProgressAt : Option ℚ
  cancelRequested : Bool
  createdAt : ℚ
  updatedAt : ℚ
  deriving DecidableEq, Repr

/-- A row of the job_steps table. -/
structure JobStep where
  id : Nat
  stepType : StepType
  status : StepStatus
  message : Option String
  startedAt : Option ℚ
  finishedAt : Option ℚ
  durationMs : Option ℚ
  deriving DecidableEq, Repr

/-- A row of the assets table (the fields the worker writes). -/
structure Asset where
  assetType : String
  url : String
  deriving DecidableEq, Repr

/-! ## JavaScript truthiness helpers

The source relies on JS truthiness: an empty string, the number 0,
undefined and null are falsy.  These helpers mirror the `x || d`
expressions of the source. -/

/-- JS `x || d` for an optional string: an absent or empty string falls
back to the default. -/
def jsOrStr (x : Option String) (d : String) : String :=
  match x with
  | some v => if v = "" then d else v
  | none => d

/-- JS `x || d` for an optional number: absent or zero falls back. -/
def jsOrQ (x : Option ℚ) (d : ℚ) : ℚ :=
  match x with
  | some v => if v = 0 then d else v
  | none => d

/-- JS `x || d` for an optional natural number: absent or zero falls back. -/
def jsOrNat (x : Option Nat) (d : Nat) : Nat :=
  match x with
  | some v => if v = 0 then d else v
  | none => d

/-- JS truthiness of an optional string. -/
def truthyStr (x : Option String) : Bool :=
  match x with
  | some v => decide (v ≠ "")
  | none => false

/-- Whitespace characters removed by trim. -/
def jsWhitespace (c : Char) : Bool :=
  decide (c = ' ') || decide (c = '\t') || decide (c = '\n') || decide (c = '\r')

/-- Structural model of `text.trim()`: drop whitespace from both ends. -/
def jsTrim (s : String) : String :=
  String.mk (((s.data.dropWhile jsWhitespace).reverse.dropWhile jsWhitespace).reverse)

/-! ## Storage layer (server/storage.ts, DatabaseStorage)

`updateJob` mirrors `db.update(jobs).set({ ...updates, updatedAt: new
Date() })`: exactly the supplied fields are overwritten and `updatedAt` is
always bumped to the current time.  `updateJobStep` sets only the supplied
fields. -/

/-- A partial update of a Job row (`Partial<Job>`).  A `none` field is not
part of the update. -/
structure JobUpdate where
  status : Option JobStatus := none
  progressPercent : Option Int := none
  etaSeconds : Option (Option ℚ) := none
  scriptText : Option (Option String) := none
  scenes : Option (Option (List Scene)) := none
  caption : Option (Option String) := none
  hashtags : Option (Option (List String)) := none
  videoUrl : Option (Option String) := none
  thumbnailUrl : Option (Option String) := none
  durationSeconds : Option (Option ℚ) := none
  errorMessage : Option (Option String) := none
  cancelRequested : Option Bool := none
  lockedBy : Option (Option String) := none
  lockedAt : Option (Option ℚ) := none
  leaseExpiresAt : Option (Option ℚ) := none

/-- DatabaseStorage.updateJob: apply the partial update and bump updatedAt. -/
def applyJobUpdate (j : Job) (u : JobUpdate) (now : ℚ) : Job :=
  { j with
    status := u.status.getD j.status
    progressPercent := u.progressPercent.getD j.progressPercent
    etaSeconds := u.etaSeconds.getD j.etaSeconds
    scriptText := u.scriptText.getD j.scriptText
    scenes := u.scenes.getD j.scenes
    caption := u.caption.getD j.caption
    hashtags := u.hashtags.getD j.hashtags
    videoUrl := u.videoUrl.getD j.videoUrl
    thumbnailUrl := u.thumbnailUrl.getD j.thumbnailUrl
    durationSeconds := u.durationSeconds.getD j.durationSeconds
    errorMessage := u.errorMessage.getD j.errorMessage
    cancelRequested := u.cancelRequested.getD j.cancelRequested
    lockedBy := u.lockedBy.getD j.lockedBy
    lockedAt := u.lockedAt.getD j.lockedAt
    leaseExpiresAt := u.leaseExpiresAt.getD j.leaseExpiresAt
    updatedAt := now }

/-- A partial update of a JobStep row. -/
structure StepUpdate where
  status : Option StepStatus := none
  message : Option (Option String) := none
  startedAt : Option (Option ℚ) := none
  finishedAt : Option (Option ℚ) := none
  durationMs : Option (Option ℚ) := none

/-- DatabaseStorage.updateJobStep: apply the partial update (no timestamp
bump on steps). -/
def applyStepUpdate (r : JobStep) (u : StepUpdate) : JobStep :=
  { r with
    status := u.status.getD r.status
    message := u.message.getD r.message
    startedAt := u.startedAt.getD r.startedAt
    finishedAt := u.finishedAt.getD r.finishedAt
    durationMs := u.durationMs.getD r.durationMs }

/-! ## Lease manager

The lock methods of the storage layer (acquireJobLock, renewJobLease,
releaseJobLock, updateLastProgress) are declared in BUILD_PLAN.md and
called from server/videoWorker.ts, but the file implementing them is not
among the provided sources; they are modelled from the spec. -/

/-- A lease is active when a lease expiry is recorded and has not passed
(resumeJobsOnStartup treats `leaseExpiresAt < now` as stale). -/
def leaseActive (j : Job) (now : ℚ) : Bool :=
  match j.leaseExpiresAt with
  | some e => decide (now < e)
  | none => false

/-- Modelled from the spec: storage.acquireJobLock is not among the
provided sources.  Spec section 4.2: `acquire(jobId, ownerId, ttl)`
succeeds only if no lease exists or the existing lease has expired, and
atomically sets `lockedBy`, `lockedAt`, `leaseExpiresAt = now + ttl`. -/
def acquireJobLock (j : Job) (owner : String) (ttl now : ℚ) : Bool × Job :=
  if leaseActive j now then (false, j)
  else
    (true, { j with
      lockedBy := some owner
      lockedAt := some now
      leaseExpiresAt := some (now + ttl) })

/-- Modelled from the spec: storage.releaseJobLock is not among the
provided sources.  Spec section 4.2: release clears the lease
unconditionally on terminal exit and never raises. -/
def releaseJobLock (j : Job) (_owner : String) : Job :=
  { j with lockedBy := none, lockedAt := none, leaseExpiresAt := none }

/-! ## Integrity verifier (server/videoRenderer.ts, checkVideoIntegrity)

The ffprobe subprocess outcome is abstracted as data; every comparison and
branch is from the source. -/

/-- One stream entry of the ffprobe JSON output. -/
structure StreamInfo where
  codecType : String
  width : Option Nat
  height : Option Nat
  deriving DecidableEq, Repr

/-- The outcome of the ffprobe invocation on the rendered file. -/
structure ProbeOutcome where
  exitCode : Nat
  parseOk : Bool
  duration : ℚ
  streams : List StreamInfo
  deriving DecidableEq, Repr

/-- The outcome of fs.stat on the rendered file. -/
structure StatOutcome where
  ok : Bool
  size : Nat
  deriving DecidableEq, Repr

/-- The IntegrityCheck result record (hasAudio is named audioPresent). -/
structure IntegrityCheck where
  valid : Bool
  error : Option String := none
  duration : Option ℚ := none
  audioPresent : Option Bool := none
  width : Option Nat := none
  height : Option Nat := none
  deriving DecidableEq, Repr

/-- checkVideoIntegrity: non-zero ffprobe exit, unparsable output,
non-positive duration, failed stat, or a file below 10000 bytes are
invalid; otherwise the result is valid and merely reports duration, audio
presence and the video stream dimensions. -/
def checkVideoIntegrity (p : ProbeOutcome) (st : StatOutcome) : IntegrityCheck :=
  if p.exitCode ≠ 0 then { valid := false, error := some "ffprobe failed" }
  else if ¬ p.parseOk then { valid := false, error := some "Failed to parse ffprobe output" }
  else if p.duration ≤ 0 then { valid := false, error := some "No duration detected" }
  else if ¬ st.ok then { valid := false, error := some "Cannot stat file" }
  else if st.size < 10000 then { valid := false, error := some "File too small" }
  else
    { valid := true
      duration := some p.duration
      audioPresent := some (p.streams.any fun si => decide (si.codecType = "audio"))
      width := (p.streams.find? fun si => decide (si.codecType = "video")).bind StreamInfo.width
      height := (p.streams.find? fun si => decide (si.codecType = "video")).bind StreamInfo.height }

/-! ## Rendering engine (server/videoRenderer.ts, renderVideo)

Scene durations and the total duration are computed exactly as in the
source; the ffmpeg subprocess chain is abstracted as a single oracle
outcome (its failure makes renderVideo throw), and the final integrity
check runs on the probed output. -/

/-- Per-scene durations: `scene.audioDurationSeconds || 5`. -/
def sceneDurations (l : List Scene) : List ℚ :=
  l.map fun sc => jsOrQ sc.audioDurationSeconds 5

/-- `sceneDurations.reduce((sum, d) => sum + d, 0)`. -/
def renderTotal (l : List Scene) : ℚ :=
  (sceneDurations l).foldl (fun a b => a + b) 0

/-- The result record of renderVideo. -/
structure RenderResult where
  videoUrl : String
  thumbnailUrl : String
  durationSeconds : ℚ
  integrityCheck : IntegrityCheck
  deriving DecidableEq, Repr

/-- External-service oracle: outcomes of the AI generators, the ffmpeg
render chain, the ffprobe duration probe, the asset-by-path lookup and the
md5-based content hash. -/
structure Gen where
  script : Except String (String × List Scene)
  imagePrompt : Nat → Except String String
  image : Nat → Except String String
  speech : Nat → Except String String
  audioProbe : Nat → Except String ℚ
  renderExec : Except String (ProbeOutcome × StatOutcome)
  captionTags : Except String (String × List String)
  assetLookup : String → Option String
  hashFn : String → String

/-- getAudioDuration: the probe result is accepted only when positive,
mirroring the `dur > 0` check of the source (retries are folded into the
oracle outcome). -/
def getAudioDurationM (g : Gen) (i : Nat) : Except String ℚ :=
  match g.audioProbe i with
  | Except.ok d => if 0 < d then Except.ok d else Except.error "Invalid duration"
  | Except.error e => Except.error e

/-- renderVideo: computes the total duration from scene durations, runs
the ffmpeg chain (oracle), uploads, and returns the render result carrying
the integrity check of the probed output file. -/
def renderVideo (g : Gen) (jobId : String) (scenes : List Scene) : Except String RenderResult :=
  match g.renderExec with
  | Except.error e => Except.error e
  | Except.ok (p, st) =>
    Except.ok
      { videoUrl := "/objects/generated/" ++ jobId ++ "/final.mp4"
        thumbnailUrl := "/objects/generated/" ++ jobId ++ "/thumbnail.jpg"
        durationSeconds := renderTotal scenes
        integrityCheck := checkVideoIntegrity p st }

/-! ## Worker state

One job with its step records, asset rows and the storage key/value rows
of the step-timing averages, together with the in-memory worker context
(`context.script`, `context.scenes`) and two instrumentation counters used
to state the claims: `extCalls` counts attempted external generation
invocations (script, image prompt, image, speech, render chain, caption),
and `stageFnRuns` counts stage-function invocations by runStep. -/

structure St where
  jobId : String
  job : Job
  steps : List JobStep
  assets : List Asset
  stepAvgs : List (String × ℚ × Nat)
  ctxScript : Option String
  ctxScenes : Option (List Scene)
  progressTrace : List Int
  extCalls : Nat
  stageFnRuns : Nat
  now : ℚ
  deriving DecidableEq, Repr

/-- storage.updateJob on the worker state; records progress writes in the
trace used to state the monotonicity claim. -/
def St.updateJob (s : St) (u : JobUpdate) : St :=
  { s with
    job := applyJobUpdate s.job u s.now
    progressTrace := s.progressTrace ++ (match u.progressPercent with
      | some p => [p]
      | none => []) }

/-- Modelled from the spec: storage.updateLastProgress is not among the
provided sources; it records the time of the last forward progress. -/
def St.updateLastProgress (s : St) : St :=
  { s with job := { s.job with lastProgressAt := some s.now } }

/-- storage.updateJobStep: update every step row matching the id (SQL
UPDATE ... WHERE id = ...). -/
def St.updateStep (s : St) (i : Nat) (u : StepUpdate) : St :=
  { s with steps := s.steps.map fun r => if r.id = i then applyStepUpdate r u else r }

/-- storage.createAsset. -/
def St.createAsset (s : St) (a : Asset) : St :=
  { s with assets := s.assets ++ [a] }

/-- Instrumentation: one external generation invocation attempted. -/
def St.extCall (s : St) : St :=
  { s with extCalls := s.extCalls + 1 }

/-- Replace or insert a key in the settings key/value rows. -/
def setKV (l : List (String × ℚ × Nat)) (k : String) (v : ℚ × Nat) : List (String × ℚ × Nat) :=
  match l.find? (fun kv => decide (kv.1 = k)) with
  | some _ => l.map fun kv => if kv.1 = k then (k, v) else kv
  | none => l ++ [(k, v)]

/-- The storage name of a stage. -/
def stepTypeName : StepType → String
  | StepType.script => "script"
  | StepType.visualAssets => "assets_visual"
  | StepType.audioAssets => "assets_audio"
  | StepType.video => "video"
  | StepType.caption => "caption"

/-- saveStepTiming: rolling average
`newAvg = (oldAvg * count + duration) / (count + 1)` keyed by
`step_avg_{contentType}_{stepType}`. -/
def saveStepTiming (s : St) (contentType : String) (stage : StepType) (durationMs : ℚ) : St :=
  let key := "step_avg_" ++ contentType ++ "_" ++ stepTypeName stage
  match (s.stepAvgs.find? (fun kv => decide (kv.1 = key))).map Prod.snd with
  | none => { s with stepAvgs := setKV s.stepAvgs key (durationMs, 1) }
  | some (avg, count) =>
    let c2 := count + 1
    { s with stepAvgs := setKV s.stepAvgs key ((avg * (count : ℚ) + durationMs) / (c2 : ℚ), c2) }

/-! ## Step runner (server/videoWorker.ts, runStep)

A stage body is a state transformer that either returns normally or
throws a message.  `seqE` is sequential composition with exception
propagation, mirroring await chains inside the try block. -/

/-- Sequential composition with exception propagation. -/
def seqE (r : St × Except String Unit) (f : St → St × Except String Unit) : St × Except String Unit :=
  match r with
  | (s, Except.ok _) => f s
  | (s, Except.error e) => (s, Except.error e)

/-- isCancelled polled at a boundary: throw `Cancelled by user` when the
job record carries cancelRequested. -/
def checkCancel (s : St) : St × Except String Unit :=
  if s.job.cancelRequested then (s, Except.error "Cancelled by user")
  else (s, Except.ok ())

/-- The state runStep produces just before invoking the stage function:
the step is marked running with a start timestamp (instrumented with the
stage-function run counter). -/
def runStepStart (s : St) (stp : JobStep) : St :=
  let s1 := St.updateStep s stp.id { status := some StepStatus.running, startedAt := some (some s.now) }
  { s1 with stageFnRuns := s1.stageFnRuns + 1 }

/-- runStep: load the step; a missing step logs and returns; a completed
step returns immediately (resume-safe no-op); otherwise mark running, run
the stage function, and on success mark completed and feed the timing
average, on failure mark failed with the error text and re-throw. -/
def runStep (stage : StepType) (fn : St → St × Except String Unit) (s : St) : St × Except String Unit :=
  match s.steps.find? (fun r => decide (r.stepType = stage)) with
  | none => (s, Except.ok ())
  | some stp =>
    if stp.status = StepStatus.completed then (s, Except.ok ())
    else
      let s1 := runStepStart s stp
      match fn s1 with
      | (s2, Except.ok _) =>
        let s3 := St.updateStep s2 stp.id
          { status := some StepStatus.completed, finishedAt := some (some s2.now), durationMs := some (some 0) }
        (saveStepTiming s3 s.job.contentType stage 0, Except.ok ())
      | (s2, Except.error e) =>
        (St.updateStep s2 stp.id
          { status := some StepStatus.failed, finishedAt := some (some s2.now), message := some (some e) },
         Except.error e)

/-! ## Pipeline stages (server/videoWorker.ts, processJob)

Every guard, skip, catch and progress write is from the source; AI and
media outcomes come from the oracle.  `calculateETA` returns null under
the abstracted clock (elapsed below 0.1 seconds), so in-stage ETA writes
store null, exactly as the source does on a fast clock. -/

/-- Step weights for progress calculation. -/
def STEP_WEIGHTS : StepType → Int
  | StepType.script => 10
  | StepType.visualAssets => 30
  | StepType.audioAssets => 15
  | StepType.video => 40
  | StepType.caption => 5

/-- Initial ETA estimate:
`script + scenes*visual + scenes*audio + scenes*video/5 + caption`
with `estimatedScenes = settings.visual?.scenesPerMinute || 6`. -/
def initialETA (settings : JobSettings) : ℚ :=
  let est : ℚ := (jsOrNat settings.scenesPerMinute 6 : Nat)
  10 + est * 45 + est * 5 + est * 90 / 5 + 5

/-- Stage 1 body: generateScript, cache script and scenes in the context,
record them on the job with progress 10. -/
def scriptFn (g : Gen) (s : St) : St × Except String Unit :=
  let s1 := St.extCall s
  match g.script with
  | Except.error e => (s1, Except.error e)
  | Except.ok (scr, scs) =>
    let s2 := { s1 with ctxScript := some scr, ctxScenes := some scs }
    let s3 := St.updateJob s2
      { status := some JobStatus.generatingScript
        scriptText := some (some scr)
        scenes := some (some scs)
        progressPercent := some 10
        etaSeconds := some none }
    (St.updateLastProgress s3, Except.ok ())

/-- Reload the scene list from the job record into the context
(`if (freshJob?.scenes) context.scenes = freshJob.scenes`). -/
def reloadScenes (s : St) : St :=
  match s.job.scenes with
  | some l => { s with ctxScenes := some l }
  | none => s

/-- Progress value written after scene `i` of `n` in the visual stage. -/
def visProg (n i : Nat) : Int :=
  round ((10 : ℚ) + 30 * ((i : ℚ) + 1) / (n : ℚ))

/-- Progress value written after scene `i` of `n` in the audio stage. -/
def audProg (n i : Nat) : Int :=
  round ((40 : ℚ) + 15 * ((i : ℚ) + 1) / (n : ℚ))

/-- The visual-assets scene loop.  `done` holds the already processed
scenes in reverse, the list argument is the remainder, `i` the index.
A scene with a truthy image URL is skipped without a progress write;
otherwise the prompt is generated (an uncaught failure aborts the stage),
the asset store is consulted by hashed path, and only then is the image
generated, a failure being caught and recorded as an empty URL. -/
def visualLoop (g : Gen) (n : Nat) (done : List Scene) (i : Nat) (s : St) :
    List Scene → St × Except String Unit
  | [] =>
    let ws := done.reverse
    let s1 := { s with ctxScenes := some ws }
    (St.updateJob s1 { scenes := some (some ws) }, Except.ok ())
  | sc :: rest =>
    if s.job.cancelRequested then (s, Except.error "Cancelled by user")
    else if truthyStr sc.backgroundAssetUrl then
      visualLoop g n (sc :: done) (i + 1) s rest
    else
      let s1 := St.extCall s
      match g.imagePrompt i with
      | Except.error e => (s1, Except.error e)
      | Except.ok prompt =>
        let sc1 := { sc with backgroundPrompt := some prompt }
        let path := "/objects/generated/" ++ s.jobId ++ "/images/scene_" ++ toString i ++ "_"
          ++ g.hashFn (prompt ++ s.jobId ++ toString i) ++ ".png"
        let step2 : Scene × St :=
          match g.assetLookup path with
          | some url => ({ sc1 with backgroundAssetUrl := some url }, s1)
          | none =>
            let s2 := St.extCall s1
            match g.image i with
            | Except.ok url =>
              ({ sc1 with backgroundAssetUrl := some url },
               St.createAsset s2 { assetType := "image", url := url })
            | Except.error _ => ({ sc1 with backgroundAssetUrl := some "" }, s2)
        let sc2 := step2.1
        let ws := done.reverse ++ sc2 :: rest
        let s3 := St.updateJob step2.2
          { progressPercent := some (visProg n i), scenes := some (some ws), etaSeconds := some none }
        visualLoop g n (sc2 :: done) (i + 1) (St.updateLastProgress s3) rest

/-- Stage 2 body: set status, reload scenes, and run the scene loop when
the context has a non-empty scene list. -/
def visualFn (g : Gen) (s : St) : St × Except String Unit :=
  let s1 := St.updateJob s { status := some JobStatus.generatingAssets }
  let s2 := reloadScenes s1
  match s2.ctxScenes with
  | some l => if 0 < l.length then visualLoop g l.length [] 0 s2 l else (s2, Except.ok ())
  | none => (s2, Except.ok ())

/-- `scene.voiceSegmentText || scene.textOverlay || ''`. -/
def audioTextOf (sc : Scene) : String :=
  jsOrStr sc.voiceSegmentText (jsOrStr sc.textOverlay "")

/-- `(scene.textOverlay?.length || 50)` as a rational. -/
def textLenOr50 (sc : Scene) : ℚ :=
  match sc.textOverlay with
  | some t => if t.length = 0 then 50 else (t.length : ℚ)
  | none => 50

/-- One scene of the reconciliation loop: a scene with a truthy audio URL
is probed (a failure falls back to the text-length estimate bounded to
[3, 10], and the third consecutive failure aborts), a silent scene gets
three seconds; the consecutive-failure counter is returned alongside. -/
def durStep (g : Gen) (i consec : Nat) (sc : Scene) : Except String (Scene × Nat) :=
  if truthyStr sc.audioAssetUrl then
    match getAudioDurationM g i with
    | Except.ok d => Except.ok ({ sc with audioDurationSeconds := some d }, 0)
    | Except.error _ =>
      if 3 ≤ consec + 1 then
        Except.error "3 consecutive audio duration detection failures. Aborting to prevent A/V desync."
      else
        Except.ok ({ sc with audioDurationSeconds := some (max 3 (min 10 (textLenOr50 sc / 15))) },
          consec + 1)
  else Except.ok ({ sc with audioDurationSeconds := some 3 }, consec)

/-- The audio-duration reconciliation loop run after all voice clips
exist: resolve each duration via durStep and recompute cumulative
start/end times, returning the rewritten scenes and the accumulated total
duration. -/
def durLoop (g : Gen) (i : Nat) (consec : Nat) (cur : ℚ) :
    List Scene → Except String (List Scene × ℚ)
  | [] => Except.ok ([], cur)
  | sc :: rest =>
    match durStep g i consec sc with
    | Except.error e => Except.error e
    | Except.ok (sc1, consec1) =>
      let dur := jsOrQ sc1.audioDurationSeconds 5
      let sc2 := { sc1 with startTime := cur, endTime := cur + dur }
      match durLoop g (i + 1) consec1 (cur + dur) rest with
      | Except.ok (l2, total) => Except.ok (sc2 :: l2, total)
      | Except.error e => Except.error e

/-- The audio-assets generation loop.  A scene with a truthy audio URL is
skipped without a progress write; a scene with no text writes progress
only; otherwise the asset store is consulted by hashed path and speech is
generated, a failure being caught and leaving the scene without audio.
After the last scene the reconciliation loop rewrites the timings. -/
def audGenLoop (g : Gen) (n : Nat) (voice : String) (done : List Scene) (i : Nat) (s : St) :
    List Scene → St × Except String Unit
  | [] =>
    let ws := done.reverse
    match durLoop g 0 0 0 ws with
    | Except.error e => (s, Except.error e)
    | Except.ok (ws2, _total) =>
      let s1 := { s with ctxScenes := some ws2 }
      (St.updateJob s1 { scenes := some (some ws2) }, Except.ok ())
  | sc :: rest =>
    if s.job.cancelRequested then (s, Except.error "Cancelled by user")
    else
      let text := audioTextOf sc
      if truthyStr sc.audioAssetUrl then
        audGenLoop g n voice (sc :: done) (i + 1) s rest
      else
        let step2 : Scene × St :=
          if jsTrim text ≠ "" then
            let path := "/objects/generated/" ++ s.jobId ++ "/audio/voice_" ++ toString i ++ "_"
              ++ g.hashFn (text ++ voice ++ s.jobId) ++ ".mp3"
            match g.assetLookup path with
            | some url => ({ sc with audioAssetUrl := some url }, s)
            | none =>
              let s2 := St.extCall s
              match g.speech i with
              | Except.ok url =>
                ({ sc with audioAssetUrl := some url },
                 St.createAsset s2 { assetType := "audio", url := url })
              | Except.error _ => (sc, s2)
          else (sc, s)
        let sc2 := step2.1
        let ws := done.reverse ++ sc2 :: rest
        let s3 := St.updateJob step2.2
          { progressPercent := some (audProg n i), scenes := some (some ws), etaSeconds := some none }
        audGenLoop g n voice (sc2 :: done) (i + 1) (St.updateLastProgress s3) rest

/-- Stage 3 body: set status, reload scenes, and run the generation and
reconciliation loops when the context holds a truthy script and a
non-empty scene list. -/
def audioFn (g : Gen) (s : St) : St × Except String Unit :=
  let s1 := St.updateJob s { status := some JobStatus.generatingAssets }
  let s2 := reloadScenes s1
  if truthyStr s2.ctxScript then
    match s2.ctxScenes with
    | some l =>
      if 0 < l.length then
        audGenLoop g l.length (jsOrStr s2.job.settings.voiceModel "nova") [] 0 s2 l
      else (s2, Except.ok ())
    | none => (s2, Except.ok ())
  else (s2, Except.ok ())

/-- Stage 4 body: set status, reload scenes, render, and throw when the
integrity check reports the output invalid; on success record the video
and thumbnail assets and the total duration with progress 95. -/
def videoFn (g : Gen) (s : St) : St × Except String Unit :=
  let s1 := St.updateJob s { status := some JobStatus.renderingVideo }
  let s2 := reloadScenes s1
  match s2.ctxScenes with
  | some l =>
    if 0 < l.length then
      let s3 := St.extCall s2
      match renderVideo g s2.jobId l with
      | Except.error e => (s3, Except.error e)
      | Except.ok res =>
        if ¬ res.integrityCheck.valid then
          (s3, Except.error ("Video integrity check failed: "
            ++ Option.getD res.integrityCheck.error "undefined"))
        else
          let s4 := St.createAsset s3 { assetType := "video", url := res.videoUrl }
          let s5 := St.createAsset s4 { assetType := "image", url := res.thumbnailUrl }
          let s6 := St.updateJob s5
            { progressPercent := some 95
              durationSeconds := some (some res.durationSeconds)
              thumbnailUrl := some (some res.thumbnailUrl)
              videoUrl := some (some res.videoUrl)
              etaSeconds := some (some 10) }
          (St.updateLastProgress s6, Except.ok ())
    else (s2, Except.ok ())
  | none => (s2, Except.ok ())

/-- Stage 5 body: set status, read the script from the record falling
back to the context, and when truthy generate the caption and hashtags
with progress 100. -/
def captionFn (g : Gen) (s : St) : St × Except String Unit :=
  let s1 := St.updateJob s { status := some JobStatus.generatingCaption }
  let script := jsOrStr s1.job.scriptText (jsOrStr s1.ctxScript "")
  if script ≠ "" then
    let s2 := St.extCall s1
    match g.captionTags with
    | Except.error e => (s2, Except.error e)
    | Except.ok (cap, tags) =>
      let s3 := St.updateJob s2
        { caption := some (some cap)
          hashtags := some (some tags)
          progressPercent := some 100
          etaSeconds := some (some 0) }
      (St.updateLastProgress s3, Except.ok ())
  else (s1, Except.ok ())

/-- The tail of the pipeline from stage 5 onward: the caption step and
the final completed write at progress 100. -/
def pipeTail5 (g : Gen) (t8 : St) : St × Except String Unit :=
  seqE (runStep StepType.caption (captionFn g) t8) (fun t9 =>
    (St.updateJob t9
      { status := some JobStatus.completed
        progressPercent := some 100
        etaSeconds := some (some 0) }, Except.ok ()))

/-- The tail from stage 4 onward: the video step, then a cancellation
poll, then the rest. -/
def pipeTail4 (g : Gen) (t6 : St) : St × Except String Unit :=
  seqE (runStep StepType.video (videoFn g) t6) (fun t7 =>
    seqE (checkCancel t7) (pipeTail5 g))

/-- The tail from stage 3 onward. -/
def pipeTail3 (g : Gen) (t4 : St) : St × Except String Unit :=
  seqE (runStep StepType.audioAssets (audioFn g) t4) (fun t5 =>
    seqE (checkCancel t5) (pipeTail4 g))

/-- The tail from stage 2 onward. -/
def pipeTail2 (g : Gen) (t2 : St) : St × Except String Unit :=
  seqE (runStep StepType.visualAssets (visualFn g) t2) (fun t3 =>
    seqE (checkCancel t3) (pipeTail3 g))

/-- The tail from stage 1 onward. -/
def pipeTail1 (g : Gen) (t0 : St) : St × Except String Unit :=
  seqE (runStep StepType.script (scriptFn g) t0) (fun t1 =>
    seqE (checkCancel t1) (pipeTail2 g))

/-- The try-block of processJob: reset the context, mark the job running
with progress 0 and the initial ETA, then drive the five stages in order
with a cancellation poll before each, and finally mark the job completed
at progress 100. -/
def pipelineBody (g : Gen) (s : St) : St × Except String Unit :=
  let s0 := { s with ctxScript := none, ctxScenes := none }
  let s1 := St.updateJob s0
    { status := some JobStatus.running
      progressPercent := some 0
      etaSeconds := some (some (initialETA s0.job.settings)) }
  let s2 := St.updateLastProgress s1
  seqE (checkCancel s2) (pipeTail1 g)

/-- The catch-block of processJob: record failure with the error message.
The source ternary on `errorMessage.includes('Cancelled')` yields the
failed status in both branches. -/
def jobFail (s : St) (e : String) : St :=
  St.updateJob s { status := some JobStatus.failed, errorMessage := some (some e) }

/-- try/catch around a body. -/
def jobCatch (body : St → St × Except String Unit) (s : St) : St :=
  match body s with
  | (t, Except.ok _) => t
  | (t, Except.error e) => jobFail t e

/-- The lease TTL (LEASE_SECONDS = 120). -/
def LEASE_SECONDS : ℚ := 120

/-- processJob: acquire the lease (skip the job entirely on failure), run
the pipeline under try/catch, and always release the lease in the finally
block.  The background lease-renewal timer is not modelled. -/
def processJob (g : Gen) (workerId : String) (s : St) : St :=
  let acq := acquireJobLock s.job workerId LEASE_SECONDS s.now
  if acq.1 then
    let sIn := { s with job := acq.2 }
    let s2 := jobCatch (pipelineBody g) sIn
    { s2 with job := releaseJobLock s2.job workerId }
  else s

/-! ## Cancel endpoint (server/routes.ts, POST /api/jobs/:id/cancel) -/

/-- HTTP outcome of the cancel endpoint. -/
inductive CancelOutcome where
  | notFound
  | badRequest
  | okDone
  deriving DecidableEq, Repr

/-- The cancel route: 404 when the job is missing, 400 when it is already
completed or failed (record untouched), otherwise
`storage.updateJob(id, { cancelRequested: true })`. -/
def cancelRoute (j : Option Job) (now : ℚ) : CancelOutcome × Option Job :=
  match j with
  | none => (CancelOutcome.notFound, none)
  | some job =>
    if job.status = JobStatus.completed ∨ job.status = JobStatus.failed then
      (CancelOutcome.badRequest, some job)
    else
      (CancelOutcome.okDone, some (applyJobUpdate job { cancelRequested := some true } now))

/-! ## Canonical step rows

initializeJobSteps creates the five step rows in pipeline order at job
creation; `mkSteps` is that canonical shape with given statuses, used to
state the idempotent-resume claim. -/

/-- The fixed pipeline order. -/
def stageList : List StepType :=
  [StepType.script, StepType.visualAssets, StepType.audioAssets, StepType.video, StepType.caption]

/-- A fresh step row. -/
def mkStep (i : Nat) (t : StepType) (st : StepStatus) : JobStep :=
  { id := i, stepType := t, status := st
    message := none, startedAt := none, finishedAt := none, durationMs := none }

/-- The five step rows in creation order with the given statuses. -/
def mkSteps (f : StepType → StepStatus) : List JobStep :=
  [mkStep 0 StepType.script (f StepType.script),
   mkStep 1 StepType.visualAssets (f StepType.visualAssets),
   mkStep 2 StepType.audioAssets (f StepType.audioAssets),
   mkStep 3 StepType.video (f StepType.video),
   mkStep 4 StepType.caption (f StepType.caption)]

/-- How many of the five stages are not yet completed. -/
def remainingCount (f : StepType → StepStatus) : Nat :=
  (stageList.filter fun t => decide (f t ≠ StepStatus.completed)).length

/-! ## Concrete fixtures used by witnesses and counterexamples -/

/-- Example settings. -/
def settings0 : JobSettings :=
  { contentType := "facts", scenesPerMinute := some 6, stylePrompt := none
    voiceModel := some "nova", subtitlesEnabled := true }

/-- A freshly created job. -/
def job0 : Job :=
  { title := "t", contentType := "facts", status := JobStatus.queued, settings := settings0
    scriptText := none, scenes := none, caption := none, hashtags := none
    videoUrl := none, thumbnailUrl := none, durationSeconds := none
    progressPercent := 0, etaSeconds := none, errorMessage := none
    lockedBy := none, lockedAt := none, leaseExpiresAt := none, lastProgressAt := none
    cancelRequested := false, createdAt := 0, updatedAt := 0 }

/-- A single script scene without generated assets yet. -/
def scene0 : Scene :=
  { index := 0, startTime := 0, endTime := 5, textOverlay := some "hello"
    voiceSegmentText := some "hello", backgroundPrompt := none
    backgroundAssetUrl := none, audioAssetUrl := none, audioDurationSeconds := none }

/-- A healthy probe of the rendered file. -/
def okProbe : ProbeOutcome :=
  { exitCode := 0, parseOk := true, duration := 5
    streams := [{ codecType := "video", width := some 1080, height := some 1920 },
                { codecType := "audio", width := none, height := none }] }

/-- A healthy stat of the rendered file. -/
def okStat : StatOutcome := { ok := true, size := 500000 }

/-- An oracle on which every external call succeeds. -/
def gen0 : Gen :=
  { script := Except.ok ("the script", [scene0])
    imagePrompt := fun _ => Except.ok "a prompt"
    image := fun _ => Except.ok "img.png"
    speech := fun _ => Except.ok "voice.mp3"
    audioProbe := fun _ => Except.ok 2
    renderExec := Except.ok (okProbe, okStat)
    captionTags := Except.ok ("cap", ["tag"])
    assetLookup := fun _ => none
    hashFn := fun _ => "h" }

/-- A fresh worker state over job0 with all five steps queued. -/
def st0 : St :=
  { jobId := "j1", job := job0, steps := mkSteps fun _ => StepStatus.queued
    assets := [], stepAvgs := [], ctxScript := none, ctxScenes := none
    progressTrace := [], extCalls := 0, stageFnRuns := 0, now := 0 }

/-! ## Claim C5 -/

/-- An encoder-successful probe with five seconds of video, no audio
stream and a 640 by 480 video stream. -/
def c5Probe : ProbeOutcome :=
  { exitCode := 0, parseOk := true, duration := 5
    streams := [{ codecType := "video", width := some 640, height := some 480 }] }

/-- A stat of a 20000-byte output file. -/
def c5Stat : StatOutcome := { ok := true, size := 20000 }

/-- Claim C5, evaluated at the failing input: an output file probed with
no audio stream and a 640 by 480 resolution (far from the requested
1080 by 1920) is nevertheless reported valid by checkVideoIntegrity; audio
presence and dimensions are only reported, never enforced, contradicting
the claim that such outputs are reported invalid. -/
theorem claim_C5_integrity_ignores_streams :
    (checkVideoIntegrity c5Probe c5Stat).valid = true ∧
    (c5Probe.streams.any fun si => decide (si.codecType = "audio")) = false ∧
    (checkVideoIntegrity c5Probe c5Stat).width = some 640 ∧
    (checkVideoIntegrity c5Probe c5Stat).height = some 480 := by
  refine ⟨by decide, by decide, by decide, by decide⟩

/-! ## Claim C2 -/

/-- Claim C2: acquire returns true only when no active lease exists, on
success it records owner, acquisition time and expiry `now + ttl`, and of
two interleaved acquire calls by different owners within the TTL exactly
the first returns true. -/
theorem claim_C2_lease_acquire (j : Job) (o1 o2 : String) (ttl t1 t2 : ℚ) :
    ((acquireJobLock j o1 ttl t1).1 = true →
      leaseActive j t1 = false ∧
      (acquireJobLock j o1 ttl t1).2.lockedBy = some o1 ∧
      (acquireJobLock j o1 ttl t1).2.lockedAt = some t1 ∧
      (acquireJobLock j o1 ttl t1).2.leaseExpiresAt = some (t1 + ttl)) ∧
    (leaseActive j t1 = false → o1 ≠ o2 → t1 ≤ t2 → t2 < t1 + ttl →
      (acquireJobLock j o1 ttl t1).1 = true ∧
      (acquireJobLock (acquireJobLock j o1 ttl t1).2 o2 ttl t2).1 = false) := by
  constructor
  · intro h
    by_cases hl : leaseActive j t1 = true
    · simp [acquireJobLock, hl] at h
    · rw [Bool.not_eq_true] at hl
      refine ⟨hl, ?_, ?_, ?_⟩ <;> simp [acquireJobLock, hl]
  · intro h1 _ _ h4
    have hfirst : acquireJobLock j o1 ttl t1 =
        (true, { j with lockedBy := some o1, lockedAt := some t1,
                        leaseExpiresAt := some (t1 + ttl) }) := by
      simp [acquireJobLock, h1]
    refine ⟨by rw [hfirst], ?_⟩
    rw [hfirst]
    simp [acquireJobLock, leaseActive, h4]

/-- Witness for claim C2 at a concrete job and times. -/
theorem claim_C2_lease_acquire_witness :
    leaseActive job0 0 = false ∧
    (acquireJobLock job0 "a" 120 0).1 = true ∧
    (acquireJobLock (acquireJobLock job0 "a" 120 0).2 "b" 120 30).1 = false := by
  refine ⟨by decide, ?_⟩
  have h := (claim_C2_lease_acquire job0 "a" "b" 120 0 30).2 (by decide)
    (by decide) (by norm_num) (by norm_num)
  exact h

/-! ## Claim C9 -/

/-- A running job whose record was last touched at time 0. -/
def job9 : Job := { job0 with status := JobStatus.running }

/-- Counterexample to claim C9 as stated: cancelling a running job leaves
the enumerated fields alone but does change a job field, because the
storage update helper always bumps updatedAt; the claim that all other
job fields are unchanged fails at this input. -/
theorem claim_C9_counterexample :
    (cancelRoute (some job9) 1).1 = CancelOutcome.okDone ∧
    job9.updatedAt = 0 ∧
    ((cancelRoute (some job9) 1).2.map Job.updatedAt) = some 1 := by
  refine ⟨by decide, by decide, by decide⟩

/-- Claim C9 as amended: a terminal job is rejected with 400 and its
record is returned untouched; otherwise the endpoint flips only
cancelRequested, leaving status, lease fields, progress, settings and
every other column unchanged except the updatedAt bookkeeping timestamp
bumped by the storage update helper. -/
theorem claim_C9_cancel_flag_only (j : Job) (now : ℚ) :
    ((j.status = JobStatus.completed ∨ j.status = JobStatus.failed) →
      cancelRoute (some j) now = (CancelOutcome.badRequest, some j)) ∧
    (¬ (j.status = JobStatus.completed ∨ j.status = JobStatus.failed) →
      ∃ j2, cancelRoute (some j) now = (CancelOutcome.okDone, some j2) ∧
        j2.cancelRequested = true ∧
        j2.status = j.status ∧
        j2.lockedBy = j.lockedBy ∧
        j2.lockedAt = j.lockedAt ∧
        j2.leaseExpiresAt = j.leaseExpiresAt ∧
        j2.lastProgressAt = j.lastProgressAt ∧
        j2.progressPercent = j.progressPercent ∧
        j2.settings = j.settings ∧
        j2.title = j.title ∧
        j2.contentType = j.contentType ∧
        j2.scriptText = j.scriptText ∧
        j2.scenes = j.scenes ∧
        j2.caption = j.caption ∧
        j2.hashtags = j.hashtags ∧
        j2.videoUrl = j.videoUrl ∧
        j2.thumbnailUrl = j.thumbnailUrl ∧
        j2.durationSeconds = j.durationSeconds ∧
        j2.etaSeconds = j.etaSeconds ∧
        j2.errorMessage = j.errorMessage ∧
        j2.createdAt = j.createdAt ∧
        j2.updatedAt = now) := by
  constructor
  · intro h
    simp [cancelRoute, h]
  · intro h
    refine ⟨applyJobUpdate j { cancelRequested := some true } now, ?_, ?_⟩
    · simp [cancelRoute, h]
    · simp [applyJobUpdate]

/-- Witness for claim C9 at a terminal and at a running job. -/
theorem claim_C9_cancel_flag_only_witness :
    cancelRoute (some { job0 with status := JobStatus.failed }) 5 =
      (CancelOutcome.badRequest, some { job0 with status := JobStatus.failed }) ∧
    ∃ j2, cancelRoute (some job9) 5 = (CancelOutcome.okDone, some j2) ∧
      j2.cancelRequested = true ∧ j2.status = job9.status ∧ j2.lockedBy = job9.lockedBy ∧
      j2.lockedAt = job9.lockedAt ∧ j2.leaseExpiresAt = job9.leaseExpiresAt ∧
      j2.lastProgressAt = job9.lastProgressAt ∧ j2.progressPercent = job9.progressPercent ∧
      j2.settings = job9.settings ∧ j2.title = job9.title ∧ j2.contentType = job9.contentType ∧
      j2.scriptText = job9.scriptText ∧ j2.scenes = job9.scenes ∧ j2.caption = job9.caption ∧
      j2.hashtags = job9.hashtags ∧ j2.videoUrl = job9.videoUrl ∧
      j2.thumbnailUrl = job9.thumbnailUrl ∧ j2.durationSeconds = job9.durationSeconds ∧
      j2.etaSeconds = job9.etaSeconds ∧ j2.errorMessage = job9.errorMessage ∧
      j2.createdAt = job9.createdAt ∧ j2.updatedAt = 5 := by
  refine ⟨(claim_C9_cancel_flag_only { job0 with status := JobStatus.failed } 5).1 (by decide), ?_⟩
  obtain ⟨j2, h⟩ := (claim_C9_cancel_flag_only job9 5).2 (by decide)
  exact ⟨j2, h.1, h.2.1, h.2.2.1, h.2.2.2.1, h.2.2.2.2.1, h.2.2.2.2.2.1, h.2.2.2.2.2.2.1,
    h.2.2.2.2.2.2.2.1, h.2.2.2.2.2.2.2.2.1, h.2.2.2.2.2.2.2.2.2.1, h.2.2.2.2.2.2.2.2.2.2.1,
    h.2.2.2.2.2.2.2.2.2.2.2.1, h.2.2.2.2.2.2.2.2.2.2.2.2.1, h.2.2.2.2.2.2.2.2.2.2.2.2.2.1,
    h.2.2.2.2.2.2.2.2.2.2.2.2.2.2.1, h.2.2.2.2.2.2.2.2.2.2.2.2.2.2.2.1,
    h.2.2.2.2.2.2.2.2.2.2.2.2.2.2.2.2.1, h.2.2.2.2.2.2.2.2.2.2.2.2.2.2.2.2.2.1,
    h.2.2.2.2.2.2.2.2.2.2.2.2.2.2.2.2.2.2.1, h.2.2.2.2.2.2.2.2.2.2.2.2.2.2.2.2.2.2.2.1,
    h.2.2.2.2.2.2.2.2.2.2.2.2.2.2.2.2.2.2.2.2.1, h.2.2.2.2.2.2.2.2.2.2.2.2.2.2.2.2.2.2.2.2.2⟩

/-! ## Claim C4 -/

/-- Claim C4: with cancelRequested set, the worker observes the flag at
the next boundary: processJob drives the job to failed with the message
`Cancelled by user` while making no external generation call and running
no stage function, and both scene loops abort at their next iteration
boundary without touching the state. -/
theorem claim_C4_cancellation (g : Gen) (wk : String) (s : St)
    (hc : s.job.cancelRequested = true)
    (hl : leaseActive s.job s.now = false) :
    ((processJob g wk s).job.status = JobStatus.failed ∧
     (processJob g wk s).job.errorMessage = some "Cancelled by user" ∧
     (processJob g wk s).extCalls = s.extCalls ∧
     (processJob g wk s).stageFnRuns = s.stageFnRuns) ∧
    (∀ n done i sc rest t, t.job.cancelRequested = true →
      visualLoop g n done i t (sc :: rest) = (t, Except.error "Cancelled by user")) ∧
    (∀ n voice done i sc rest t, t.job.cancelRequested = true →
      audGenLoop g n voice done i t (sc :: rest) = (t, Except.error "Cancelled by user")) := by
  refine ⟨?_, ?_, ?_⟩
  · have hacq : acquireJobLock s.job wk LEASE_SECONDS s.now =
        (true,
          { s.job with
            lockedBy := some wk
            lockedAt := some s.now
            leaseExpiresAt := some (s.now + LEASE_SECONDS) }) := by
      simp [acquireJobLock, hl]
    refine ⟨?_, ?_, ?_, ?_⟩ <;>
      simp [processJob, hacq, jobCatch, pipelineBody, pipeTail1, pipeTail2, pipeTail3,
        pipeTail4, pipeTail5, seqE, checkCancel, jobFail,
        St.updateJob, St.updateLastProgress, applyJobUpdate, releaseJobLock, hc]
  · intro n done i sc rest t ht
    simp [visualLoop, ht]
  · intro n voice done i sc rest t ht
    simp [audGenLoop, ht]

/-- A worker state over a job with cancelRequested already set. -/
def st4 : St := { st0 with job := { job0 with cancelRequested := true } }

/-- Witness for claim C4 at a concrete cancelled job. -/
theorem claim_C4_cancellation_witness :
    st4.job.cancelRequested = true ∧
    (processJob gen0 "w" st4).job.status = JobStatus.failed ∧
    (processJob gen0 "w" st4).job.errorMessage = some "Cancelled by user" ∧
    (processJob gen0 "w" st4).extCalls = st4.extCalls ∧
    visualLoop gen0 1 [] 0 st4 [scene0] = (st4, Except.error "Cancelled by user") ∧
    audGenLoop gen0 1 "nova" [] 0 st4 [scene0] = (st4, Except.error "Cancelled by user") := by
  have h := claim_C4_cancellation gen0 "w" st4 (by decide) (by decide)
  exact ⟨by decide, h.1.1, h.1.2.1, h.1.2.2.1,
    h.2.1 1 [] 0 scene0 [] st4 (by decide),
    h.2.2 1 "nova" [] 0 scene0 [] st4 (by decide)⟩

/-! ## Shared lemmas about the step runner failure path -/

/-- applyStepUpdate never changes the row id. -/
theorem applyStepUpdate_id (r : JobStep) (u : StepUpdate) : (applyStepUpdate r u).id = r.id := rfl

/-- applyStepUpdate never changes the row stepType. -/
theorem applyStepUpdate_stepType (r : JobStep) (u : StepUpdate) :
    (applyStepUpdate r u).stepType = r.stepType := rfl

/-- When the stage function throws, runStep marks the step failed with the
message and re-throws, and the catch block of processJob records the job
failure. -/
theorem runStep_error_marks (stage : StepType) (fn : St → St × Except String Unit)
    (s s2 : St) (stp : JobStep) (e : String)
    (hfind : s.steps.find? (fun r => decide (r.stepType = stage)) = some stp)
    (hnc : ¬ stp.status = StepStatus.completed)
    (hfn : fn (runStepStart s stp) = (s2, Except.error e)) :
    jobCatch (runStep stage fn) s =
      jobFail (St.updateStep s2 stp.id
        { status := some StepStatus.failed, finishedAt := some (some s2.now),
          message := some (some e) }) e := by
  simp [jobCatch, runStep, hfind, hnc, hfn]

/-- jobFail records the failed status. -/
theorem jobFail_status (t : St) (e : String) : (jobFail t e).job.status = JobStatus.failed := by
  simp [jobFail, St.updateJob, applyJobUpdate]

/-- jobFail records the error message. -/
theorem jobFail_errorMessage (t : St) (e : String) :
    (jobFail t e).job.errorMessage = some e := by
  simp [jobFail, St.updateJob, applyJobUpdate]

/-- jobFail leaves the step rows alone. -/
theorem jobFail_steps (t : St) (e : String) : (jobFail t e).steps = t.steps := rfl

/-- Membership in an updated step list comes from membership in the
original list. -/
theorem mem_updateStep (s : St) (i : Nat) (u : StepUpdate) (r : JobStep)
    (h : r ∈ (St.updateStep s i u).steps) :
    ∃ r0 ∈ s.steps, r = if r0.id = i then applyStepUpdate r0 u else r0 := by
  simp only [St.updateStep, List.mem_map] at h
  obtain ⟨r0, hr0, hrr⟩ := h
  exact ⟨r0, hr0, hrr.symm⟩

/-- Every row of an updated step list carrying the updated id has the
fields of the update applied. -/
theorem updateStep_at_id (s : St) (i : Nat) (u : StepUpdate) (r : JobStep)
    (h : r ∈ (St.updateStep s i u).steps) (hid : r.id = i) :
    ∃ r0 ∈ s.steps, r0.id = i ∧ r = applyStepUpdate r0 u := by
  obtain ⟨r0, hr0, hrr⟩ := mem_updateStep s i u r h
  by_cases hc : r0.id = i
  · exact ⟨r0, hr0, hc, by simpa [hc] using hrr⟩
  · rw [if_neg hc] at hrr
    exact absurd (hrr ▸ hid) hc

/-- The updated row stays in the list. -/
theorem updateStep_mem_of_mem (s : St) (i : Nat) (u : StepUpdate) (r0 : JobStep)
    (h : r0 ∈ s.steps) :
    (if r0.id = i then applyStepUpdate r0 u else r0) ∈ (St.updateStep s i u).steps := by
  simp only [St.updateStep, List.mem_map]
  exact ⟨r0, h, rfl⟩

/-! ## Claim C3 -/

/-- On an invalid render result the video stage body throws the integrity
message, leaving the step rows alone. -/
theorem videoFn_invalid (g : Gen) (s : St) (l : List Scene) (p : ProbeOutcome) (st : StatOutcome)
    (hscenes : s.job.scenes = some l) (hl : 0 < l.length)
    (hexec : g.renderExec = Except.ok (p, st))
    (hvalid : (checkVideoIntegrity p st).valid = false) :
    ∃ t, videoFn g s = (t, Except.error ("Video integrity check failed: "
        ++ Option.getD (checkVideoIntegrity p st).error "undefined")) ∧
      t.steps = s.steps ∧ t.now = s.now := by
  have hs1 : (St.updateJob s { status := some JobStatus.renderingVideo }).job.scenes = some l := by
    simp [St.updateJob, applyJobUpdate, hscenes]
  have hre : reloadScenes (St.updateJob s { status := some JobStatus.renderingVideo }) =
      { St.updateJob s { status := some JobStatus.renderingVideo } with ctxScenes := some l } := by
    simp [reloadScenes, hs1]
  refine ⟨St.extCall
    { St.updateJob s { status := some JobStatus.renderingVideo } with ctxScenes := some l },
    ?_, rfl, rfl⟩
  simp [videoFn, hre, hl, renderVideo, hexec, hvalid]

/-- Claim C3: when every encoder invocation exits 0 but the probed output
has non-positive duration or a size below the 10000-byte floor,
checkVideoIntegrity reports the output invalid, and the video step of the
pipeline throws: the step row and the job both become failed rather than
completed. -/
theorem claim_C3_integrity_gate (g : Gen) (s : St) (stp : JobStep) (l : List Scene)
    (p : ProbeOutcome) (st : StatOutcome)
    (hexit : p.exitCode = 0) (hparse : p.parseOk = true) (hstat : st.ok = true)
    (hbad : p.duration ≤ 0 ∨ st.size < 10000)
    (hexec : g.renderExec = Except.ok (p, st))
    (hfind : s.steps.find? (fun r => decide (r.stepType = StepType.video)) = some stp)
    (hnc : ¬ stp.status = StepStatus.completed)
    (hscenes : s.job.scenes = some l) (hl : 0 < l.length) :
    (checkVideoIntegrity p st).valid = false ∧
    (jobCatch (runStep StepType.video (videoFn g)) s).job.status = JobStatus.failed ∧
    (∃ r ∈ (jobCatch (runStep StepType.video (videoFn g)) s).steps, r.id = stp.id) ∧
    (∀ r ∈ (jobCatch (runStep StepType.video (videoFn g)) s).steps, r.id = stp.id →
      r.status = StepStatus.failed) := by
  have hvalid : (checkVideoIntegrity p st).valid = false := by
    by_cases hd : p.duration ≤ 0
    · simp [checkVideoIntegrity, hexit, hparse, hd]
    · have hsize : st.size < 10000 := hbad.resolve_left hd
      simp [checkVideoIntegrity, hexit, hparse, hstat, hd, hsize]
  have hjobscenes : (runStepStart s stp).job.scenes = some l := hscenes
  obtain ⟨t, hfn, htsteps, _⟩ :=
    videoFn_invalid g (runStepStart s stp) l p st hjobscenes hl hexec hvalid
  have hmark := runStep_error_marks StepType.video (videoFn g) s t stp _ hfind hnc hfn
  rw [hmark]
  refine ⟨hvalid, jobFail_status _ _, ?_, ?_⟩
  · have hstpmem : stp ∈ s.steps := List.mem_of_find?_eq_some hfind
    have h1 : (if stp.id = stp.id then
        applyStepUpdate stp { status := some StepStatus.running, startedAt := some (some s.now) }
        else stp) ∈ (runStepStart s stp).steps := by
      exact updateStep_mem_of_mem s stp.id _ stp hstpmem
    rw [if_pos rfl] at h1
    rw [← htsteps] at h1
    have h2 := updateStep_mem_of_mem t stp.id
      { status := some StepStatus.failed, finishedAt := some (some t.now),
        message := some (some ("Video integrity check failed: "
          ++ Option.getD (checkVideoIntegrity p st).error "undefined")) }
      _ h1
    rw [applyStepUpdate_id, if_pos rfl] at h2
    rw [jobFail_steps]
    exact ⟨_, h2, by rw [applyStepUpdate_id, applyStepUpdate_id]⟩
  · intro r hr hid
    rw [jobFail_steps] at hr
    obtain ⟨r0, _, _, hreq⟩ := updateStep_at_id t stp.id _ r hr hid
    rw [hreq]
    simp [applyStepUpdate]

/-- A probe with ffprobe exit 0 but zero reported duration. -/
def badProbe : ProbeOutcome := { okProbe with duration := 0 }

/-- An oracle whose render chain succeeds yet produces a zero-duration file. -/
def gen3 : Gen := { gen0 with renderExec := Except.ok (badProbe, okStat) }

/-- A worker state whose job carries one renderable scene. -/
def st3 : St := { st0 with job := { job0 with scenes := some [scene0] } }

/-- Witness for claim C3 at a concrete zero-duration render. -/
theorem claim_C3_integrity_gate_witness :
    (checkVideoIntegrity badProbe okStat).valid = false ∧
    (jobCatch (runStep StepType.video (videoFn gen3)) st3).job.status = JobStatus.failed ∧
    (∃ r ∈ (jobCatch (runStep StepType.video (videoFn gen3)) st3).steps,
      r.id = (mkStep 3 StepType.video StepStatus.queued).id) ∧
    (∀ r ∈ (jobCatch (runStep StepType.video (videoFn gen3)) st3).steps,
      r.id = (mkStep 3 StepType.video StepStatus.queued).id → r.status = StepStatus.failed) :=
  claim_C3_integrity_gate gen3 st3 (mkStep 3 StepType.video StepStatus.queued) [scene0]
    badProbe okStat (by decide) (by decide) (by decide) (Or.inl (by decide)) rfl
    (by decide) (by decide) rfl (by decide)

/-! ## Claim C6 -/

/-- An oracle on which image generation always fails. -/
def gen6 : Gen := { gen0 with image := fun _ => Except.error "boom" }

/-- Counterexample to claim C6 as stated: with image generation failing
for the only scene, the job still runs to completed with every step
completed and no error message, because the per-scene generation failure
is caught inside the scene loop; it does not propagate out of the stage. -/
theorem claim_C6_counterexample :
    gen6.image 0 = Except.error "boom" ∧
    (processJob gen6 "w" st0).job.status = JobStatus.completed ∧
    (processJob gen6 "w" st0).job.errorMessage = none ∧
    (∀ r ∈ (processJob gen6 "w" st0).steps, r.status = StepStatus.completed) := by
  refine ⟨rfl, by decide, by decide, by decide⟩

/-- Claim C6 as amended: an error that propagates out of a stage function
marks that JobStep failed with the error text and fails the whole job with
that message; per-scene image and speech generation failures, however, are
caught inside the scene loops and do not abort the stage. -/
theorem claim_C6_error_propagation (stage : StepType) (fn : St → St × Except String Unit)
    (s s2 : St) (stp : JobStep) (e : String)
    (hfind : s.steps.find? (fun r => decide (r.stepType = stage)) = some stp)
    (hnc : ¬ stp.status = StepStatus.completed)
    (hfn : fn (runStepStart s stp) = (s2, Except.error e))
    (hsteps : s2.steps = (runStepStart s stp).steps) :
    (jobCatch (runStep stage fn) s).job.status = JobStatus.failed ∧
    (jobCatch (runStep stage fn) s).job.errorMessage = some e ∧
    (∃ r ∈ (jobCatch (runStep stage fn) s).steps, r.id = stp.id) ∧
    (∀ r ∈ (jobCatch (runStep stage fn) s).steps, r.id = stp.id →
      r.status = StepStatus.failed ∧ r.message = some e) := by
  have hmark := runStep_error_marks stage fn s s2 stp e hfind hnc hfn
  rw [hmark]
  refine ⟨jobFail_status _ _, jobFail_errorMessage _ _, ?_, ?_⟩
  · have hstpmem : stp ∈ s.steps := List.mem_of_find?_eq_some hfind
    have h1 : (if stp.id = stp.id then
        applyStepUpdate stp { status := some StepStatus.running, startedAt := some (some s.now) }
        else stp) ∈ (runStepStart s stp).steps :=
      updateStep_mem_of_mem s stp.id _ stp hstpmem
    rw [if_pos rfl] at h1
    rw [← hsteps] at h1
    have h2 := updateStep_mem_of_mem s2 stp.id
      { status := some StepStatus.failed, finishedAt := some (some s2.now),
        message := some (some e) } _ h1
    rw [applyStepUpdate_id, if_pos rfl] at h2
    rw [jobFail_steps]
    exact ⟨_, h2, by rw [applyStepUpdate_id, applyStepUpdate_id]⟩
  · intro r hr hid
    rw [jobFail_steps] at hr
    obtain ⟨r0, _, _, hreq⟩ := updateStep_at_id s2 stp.id _ r hr hid
    rw [hreq]
    simp [applyStepUpdate]

/-- Witness for claim C6 at a concrete always-throwing stage function. -/
theorem claim_C6_error_propagation_witness :
    (jobCatch (runStep StepType.script (fun t => (t, Except.error "X"))) st0).job.status
      = JobStatus.failed ∧
    (jobCatch (runStep StepType.script (fun t => (t, Except.error "X"))) st0).job.errorMessage
      = some "X" ∧
    (∃ r ∈ (jobCatch (runStep StepType.script (fun t => (t, Except.error "X"))) st0).steps,
      r.id = (mkStep 0 StepType.script StepStatus.queued).id) ∧
    (∀ r ∈ (jobCatch (runStep StepType.script (fun t => (t, Except.error "X"))) st0).steps,
      r.id = (mkStep 0 StepType.script StepStatus.queued).id →
      r.status = StepStatus.failed ∧ r.message = some "X") :=
  claim_C6_error_propagation StepType.script (fun t => (t, Except.error "X")) st0
    (runStepStart st0 (mkStep 0 StepType.script StepStatus.queued))
    (mkStep 0 StepType.script StepStatus.queued) "X" (by decide) (by decide) rfl rfl

/-! ## Claim C10 -/

/-- Claim C10: runStep on a job lacking the step record returns normally
without invoking the stage function or creating anything, and processJob
on a job with no step records at all runs no stage function, makes no
external call, and still marks the job completed at progress 100. -/
theorem claim_C10_missing_steps :
    (∀ (s : St) (stage : StepType) (fn : St → St × Except String Unit),
      s.steps.find? (fun r => decide (r.stepType = stage)) = none →
      runStep stage fn s = (s, Except.ok ())) ∧
    (∀ (g : Gen) (wk : String) (s : St), s.steps = [] →
      s.job.cancelRequested = false → leaseActive s.job s.now = false →
      (processJob g wk s).job.status = JobStatus.completed ∧
      (processJob g wk s).job.progressPercent = 100 ∧
      (processJob g wk s).steps = [] ∧
      (processJob g wk s).stageFnRuns = s.stageFnRuns ∧
      (processJob g wk s).extCalls = s.extCalls) := by
  constructor
  · intro s stage fn h
    simp [runStep, h]
  · intro g wk s hsteps hc hl
    have hacq : acquireJobLock s.job wk LEASE_SECONDS s.now =
        (true,
          { s.job with
            lockedBy := some wk
            lockedAt := some s.now
            leaseExpiresAt := some (s.now + LEASE_SECONDS) }) := by
      simp [acquireJobLock, hl]
    refine ⟨?_, ?_, ?_, ?_, ?_⟩ <;>
      simp [processJob, hacq, jobCatch, pipelineBody, pipeTail1, pipeTail2, pipeTail3,
        pipeTail4, pipeTail5, seqE, checkCancel, runStep,
        jobFail, St.updateJob, St.updateLastProgress, applyJobUpdate, releaseJobLock,
        hsteps, hc]

/-- A worker state with no step rows at all. -/
def st10 : St := { st0 with steps := [] }

/-- Witness for claim C10 at a concrete job with no step rows. -/
theorem claim_C10_missing_steps_witness :
    runStep StepType.video (visualFn gen0) st10 = (st10, Except.ok ()) ∧
    (processJob gen0 "w" st10).job.status = JobStatus.completed ∧
    (processJob gen0 "w" st10).job.progressPercent = 100 ∧
    (processJob gen0 "w" st10).steps = [] ∧
    (processJob gen0 "w" st10).stageFnRuns = st10.stageFnRuns ∧
    (processJob gen0 "w" st10).extCalls = st10.extCalls := by
  have h := claim_C10_missing_steps
  have h2 := h.2 gen0 "w" st10 rfl (by decide) (by decide)
  exact ⟨h.1 st10 StepType.video (visualFn gen0) (by decide),
    h2.1, h2.2.1, h2.2.2.1, h2.2.2.2.1, h2.2.2.2.2⟩

/-! ## Claim C7 -/

/-- The scenes of a list are contiguous starting at time `t` and ending
at time `T`, each spanning exactly its effective duration
`audioDurationSeconds || 5`. -/
def Contig : ℚ → List Scene → ℚ → Prop
  | t, [], tEnd => t = tEnd
  | t, sc :: rest, tEnd =>
    sc.startTime = t ∧ sc.endTime = t + jsOrQ sc.audioDurationSeconds 5 ∧
    Contig sc.endTime rest tEnd

/-- Folding addition from `a` equals `a` plus folding from zero. -/
theorem foldl_add_shift (l : List ℚ) (a : ℚ) :
    l.foldl (fun x y => x + y) a = a + l.foldl (fun x y => x + y) 0 := by
  induction l generalizing a with
  | nil => simp
  | cons b l ih =>
    simp only [List.foldl_cons]
    rw [ih (a + b), ih (0 + b)]
    ring

/-- renderTotal of a cons. -/
theorem renderTotal_cons (sc : Scene) (l : List Scene) :
    renderTotal (sc :: l) = jsOrQ sc.audioDurationSeconds 5 + renderTotal l := by
  simp only [renderTotal, sceneDurations, List.map_cons, List.foldl_cons]
  rw [foldl_add_shift]
  ring

/-- The reconciliation loop produces contiguous scenes whose accumulated
total is the starting time plus the renderer total of the output. -/
theorem durLoop_contig (g : Gen) :
    ∀ (l : List Scene) (i consec : Nat) (cur : ℚ) (l2 : List Scene) (total : ℚ),
      durLoop g i consec cur l = Except.ok (l2, total) →
      Contig cur l2 total ∧ total = cur + renderTotal l2 ∧ l2.length = l.length := by
  intro l
  induction l with
  | nil =>
    intro i consec cur l2 total h
    simp only [durLoop] at h
    obtain ⟨h1, h2⟩ := Prod.mk.injEq .. ▸ Except.ok.injEq .. ▸ h
    · exact ⟨by simp [← h1, Contig, h2], by simp [← h1, renderTotal, sceneDurations, h2], by simp [← h1]⟩
  | cons sc rest ih =>
    intro i consec cur l2 total h
    simp only [durLoop] at h
    cases hstep : durStep g i consec sc with
    | error e => rw [hstep] at h; exact absurd h (by simp)
    | ok pr =>
      obtain ⟨sc1, consec1⟩ := pr
      rw [hstep] at h
      simp only at h
      cases hrec : durLoop g (i + 1) consec1 (cur + jsOrQ sc1.audioDurationSeconds 5) rest with
      | error e => rw [hrec] at h; exact absurd h (by simp)
      | ok pr2 =>
        obtain ⟨l2r, totalr⟩ := pr2
        rw [hrec] at h
        simp only [Except.ok.injEq, Prod.mk.injEq] at h
        obtain ⟨hl2, htot⟩ := h
        obtain ⟨hc, hsum, hlen⟩ :=
          ih (i + 1) consec1 (cur + jsOrQ sc1.audioDurationSeconds 5) l2r totalr hrec
        subst hl2 htot
        refine ⟨⟨rfl, rfl, hc⟩, ?_, by simp [hlen]⟩
        rw [renderTotal_cons]
        simp only at hsum ⊢
        rw [hsum]
        ring

/-- The head of a contiguous list starts at the starting time. -/
theorem contig_head (t T : ℚ) (sc : Scene) (l : List Scene)
    (h : Contig t (sc :: l) T) : sc.startTime = t := h.1

/-- Adjacent scenes of a contiguous list meet exactly. -/
theorem contig_adjacent :
    ∀ (l : List Scene) (t T : ℚ), Contig t l T →
      ∀ (j : Nat) (h1 : j + 1 < l.length),
        (l.get ⟨j, Nat.lt_of_succ_lt h1⟩).endTime = (l.get ⟨j + 1, h1⟩).startTime := by
  intro l
  induction l with
  | nil => intro t T _ j h1; simp at h1
  | cons sc rest ih =>
    intro t T h j h1
    obtain ⟨hs, he, hrest⟩ := h
    cases j with
    | zero =>
      cases rest with
      | nil => simp at h1
      | cons sc2 r2 => exact (contig_head _ _ _ _ hrest).symm
    | succ k =>
      have h2 : k + 1 < rest.length := by simpa using h1
      simpa using ih sc.endTime T hrest k h2

/-- The last scene of a non-empty contiguous list ends at the total. -/
theorem contig_last :
    ∀ (l : List Scene) (t T : ℚ), Contig t l T → ∀ (h : l ≠ []),
      (l.getLast h).endTime = T := by
  intro l
  induction l with
  | nil => intro t T _ h; exact absurd rfl h
  | cons sc rest ih =>
    intro t T h _
    obtain ⟨hs, he, hrest⟩ := h
    cases rest with
    | nil => simpa [List.getLast] using hrest
    | cons sc2 r2 =>
      rw [List.getLast_cons (by simp)]
      exact ih sc.endTime T hrest (by simp)

/-- Claim C7: the timings recomputed by the audio reconciliation loop make
the scenes contiguous and non-overlapping: the first scene starts at 0,
every scene ends exactly where the next begins, and the last scene ends
at the accumulated total, which equals renderTotal of the output scenes,
the very durationSeconds the video step later records from renderVideo. -/
theorem claim_C7_scene_timing (g : Gen) (l l2 : List Scene) (total : ℚ)
    (hrun : durLoop g 0 0 0 l = Except.ok (l2, total)) (hne : l ≠ []) :
    l2.length = l.length ∧
    (∃ sc0, l2.head? = some sc0 ∧ sc0.startTime = 0) ∧
    (∀ (j : Nat) (h1 : j + 1 < l2.length),
      (l2.get ⟨j, Nat.lt_of_succ_lt h1⟩).endTime = (l2.get ⟨j + 1, h1⟩).startTime) ∧
    (∃ hne2 : l2 ≠ [], (l2.getLast hne2).endTime = total) ∧
    total = renderTotal l2 := by
  obtain ⟨hc, hsum, hlen⟩ := durLoop_contig g l 0 0 0 l2 total hrun
  have hne2 : l2 ≠ [] := by
    intro hnil
    exact hne (List.length_eq_zero.mp (by rw [← hlen, hnil]; rfl))
  refine ⟨hlen, ?_, contig_adjacent l2 0 total hc, ⟨hne2, contig_last l2 0 total hc hne2⟩, ?_⟩
  · cases l2 with
    | nil => exact absurd rfl hne2
    | cons sc0 r => exact ⟨sc0, rfl, contig_head _ _ _ _ hc⟩
  · rw [hsum]; ring

/-- A scene carrying a generated voice clip. -/
def sceneA : Scene := { scene0 with audioAssetUrl := some "voice.mp3" }

/-- The reconciled form of sceneA under the two-second probe of gen0. -/
def sceneA2 : Scene :=
  { sceneA with audioDurationSeconds := some 2, startTime := 0, endTime := 2 }

/-- Witness for claim C7 at a concrete one-scene run with a two-second
probed duration. -/
theorem claim_C7_scene_timing_witness :
    [sceneA2].length = [sceneA].length ∧
    (∃ sc0, [sceneA2].head? = some sc0 ∧ sc0.startTime = 0) ∧
    (∀ (j : Nat) (h1 : j + 1 < [sceneA2].length),
      ([sceneA2].get ⟨j, Nat.lt_of_succ_lt h1⟩).endTime = ([sceneA2].get ⟨j + 1, h1⟩).startTime) ∧
    (∃ hne2 : [sceneA2] ≠ [], ([sceneA2].getLast hne2).endTime = (2 : ℚ)) ∧
    (2 : ℚ) = renderTotal [sceneA2] :=
  claim_C7_scene_timing gen0 [sceneA] [sceneA2] 2
    (by simp [durLoop, durStep, getAudioDurationM, gen0, sceneA, sceneA2, scene0, truthyStr, jsOrQ])
    (by simp)

/-! ## Claim C8: progress-write bookkeeping -/

/-- The progress writes performed between two states lie within
`[lo, hi]` and are non-decreasing. -/
def WritesIn (s t : St) (lo hi : Int) : Prop :=
  ∃ w, t.progressTrace = s.progressTrace ++ w ∧
    List.Pairwise (fun a b => a ≤ b) w ∧ ∀ v ∈ w, lo ≤ v ∧ v ≤ hi

/-- A trace-preserving step writes nothing. -/
theorem writesIn_of_eq {s t : St} (h : t.progressTrace = s.progressTrace) (lo hi : Int) :
    WritesIn s t lo hi :=
  ⟨[], by simp [h], by simp, by simp⟩

/-- Widening the write bounds. -/
theorem writesIn_mono {s t : St} {lo hi lo2 hi2 : Int} (h : WritesIn s t lo hi)
    (hl : lo2 ≤ lo) (hh : hi ≤ hi2) : WritesIn s t lo2 hi2 := by
  obtain ⟨w, he, hp, hb⟩ := h
  exact ⟨w, he, hp, fun v hv => ⟨le_trans hl (hb v hv).1, le_trans (hb v hv).2 hh⟩⟩

/-- Sequencing write segments whose bounds meet in order. -/
theorem writesIn_comp {s t u : St} {a b c d : Int} (h1 : WritesIn s t a b)
    (h2 : WritesIn t u c d) (hac : a ≤ c) (hbc : b ≤ c) (hbd : b ≤ d) :
    WritesIn s u a d := by
  obtain ⟨w1, e1, p1, b1⟩ := h1
  obtain ⟨w2, e2, p2, b2⟩ := h2
  refine ⟨w1 ++ w2, by rw [e2, e1, List.append_assoc], ?_, ?_⟩
  · rw [List.pairwise_append]
    exact ⟨p1, p2, fun x hx y hy => le_trans (b1 x hx).2 (le_trans hbc (b2 y hy).1)⟩
  · intro v hv
    rcases List.mem_append.mp hv with h | h
    · exact ⟨(b1 v h).1, le_trans (b1 v h).2 hbd⟩
    · exact ⟨le_trans hac (b2 v h).1, (b2 v h).2⟩

/-- An updateJob carrying a progress value writes exactly that value. -/
theorem writesIn_updateJob {s : St} {u : JobUpdate} {p lo hi : Int}
    (hp : u.progressPercent = some p) (h1 : lo ≤ p) (h2 : p ≤ hi) :
    WritesIn s (St.updateJob s u) lo hi :=
  ⟨[p], by simp [St.updateJob, hp], by simp, by simp [h1, h2]⟩

/-- An updateJob without a progress value writes nothing. -/
theorem writesIn_updateJob_none {s : St} {u : JobUpdate} (hp : u.progressPercent = none)
    (lo hi : Int) : WritesIn s (St.updateJob s u) lo hi :=
  writesIn_of_eq (by simp [St.updateJob, hp]) lo hi

/-- Trace projections of the trace-preserving state operations. -/
theorem trace_updateLastProgress (s : St) :
    (St.updateLastProgress s).progressTrace = s.progressTrace := rfl

theorem trace_updateStep (s : St) (i : Nat) (u : StepUpdate) :
    (St.updateStep s i u).progressTrace = s.progressTrace := rfl

theorem trace_createAsset (s : St) (a : Asset) :
    (St.createAsset s a).progressTrace = s.progressTrace := rfl

theorem trace_extCall (s : St) : (St.extCall s).progressTrace = s.progressTrace := rfl

theorem trace_saveStepTiming (s : St) (c : String) (st : StepType) (d : ℚ) :
    (saveStepTiming s c st d).progressTrace = s.progressTrace := by
  simp only [saveStepTiming]
  split <;> rfl

theorem trace_reloadScenes (s : St) : (reloadScenes s).progressTrace = s.progressTrace := by
  unfold reloadScenes
  split <;> rfl

theorem steps_reloadScenes (s : St) : (reloadScenes s).steps = s.steps := by
  unfold reloadScenes
  split <;> rfl

theorem runs_reloadScenes (s : St) : (reloadScenes s).stageFnRuns = s.stageFnRuns := by
  unfold reloadScenes
  split <;> rfl

theorem job_reloadScenes (s : St) : (reloadScenes s).job = s.job := by
  unfold reloadScenes
  split <;> rfl

theorem checkCancel_fst (s : St) : (checkCancel s).1 = s := by
  unfold checkCancel
  split <;> rfl

/-! Rounding bounds (JS `Math.round(x)` is `round x = ⌊x + 1/2⌋`). -/

theorem roundQ_mono {x y : ℚ} (h : x ≤ y) : round x ≤ round y := by
  rw [round_eq, round_eq]
  exact Int.floor_le_floor (by linarith)

theorem roundQ_le_int {x : ℚ} {b : ℤ} (h : x ≤ (b : ℚ)) : round x ≤ b := by
  have h2 := roundQ_mono h
  rwa [round_intCast] at h2

theorem int_le_roundQ {a : ℤ} {x : ℚ} (h : (a : ℚ) ≤ x) : a ≤ round x := by
  have h2 := roundQ_mono h
  rwa [round_intCast] at h2

theorem visProg_lb (n i : Nat) : 10 ≤ visProg n i := by
  apply int_le_roundQ
  push_cast
  have hnn : (0 : ℚ) ≤ 30 * ((i : ℚ) + 1) / n := by positivity
  linarith

theorem visProg_ub (n i : Nat) (h : i + 1 ≤ n) : visProg n i ≤ 40 := by
  apply roundQ_le_int
  push_cast
  have hn : (0 : ℚ) < n := by
    have : 1 ≤ n := le_trans (Nat.le_add_left 1 i) h
    exact_mod_cast Nat.lt_of_lt_of_le Nat.zero_lt_one this
  have hin : ((i : ℚ) + 1) ≤ n := by exact_mod_cast h
  have hq : 30 * ((i : ℚ) + 1) / n ≤ 30 := by
    rw [div_le_iff hn]
    nlinarith
  linarith

theorem visProg_mono (n i : Nat) : visProg n i ≤ visProg n (i + 1) := by
  apply roundQ_mono
  rcases Nat.eq_zero_or_pos n with hz | hp
  · subst hz
    push_cast
    simp
  · have hn : (0 : ℚ) < n := by exact_mod_cast hp
    push_cast
    have h3 : 30 * ((i : ℚ) + 1) / n ≤ 30 * ((i : ℚ) + 1 + 1) / n := by
      rw [div_le_div_right hn]
      linarith
    linarith

theorem audProg_lb (n i : Nat) : 40 ≤ audProg n i := by
  apply int_le_roundQ
  push_cast
  have hnn : (0 : ℚ) ≤ 15 * ((i : ℚ) + 1) / n := by positivity
  linarith

theorem audProg_ub (n i : Nat) (h : i + 1 ≤ n) : audProg n i ≤ 55 := by
  apply roundQ_le_int
  push_cast
  have hn : (0 : ℚ) < n := by
    have : 1 ≤ n := le_trans (Nat.le_add_left 1 i) h
    exact_mod_cast Nat.lt_of_lt_of_le Nat.zero_lt_one this
  have hin : ((i : ℚ) + 1) ≤ n := by exact_mod_cast h
  have hq : 15 * ((i : ℚ) + 1) / n ≤ 15 := by
    rw [div_le_iff hn]
    nlinarith
  linarith

theorem audProg_mono (n i : Nat) : audProg n i ≤ audProg n (i + 1) := by
  apply roundQ_mono
  rcases Nat.eq_zero_or_pos n with hz | hp
  · subst hz
    push_cast
    simp
  · have hn : (0 : ℚ) < n := by exact_mod_cast hp
    push_cast
    have h3 : 15 * ((i : ℚ) + 1) / n ≤ 15 * ((i : ℚ) + 1 + 1) / n := by
      rw [div_le_div_right hn]
      linarith
    linarith

/-- The visual scene loop writes ascending progress values within
`[visProg n i, 40]`. -/
theorem visualLoop_writes (g : Gen) (n : Nat) :
    ∀ (rest done : List Scene) (i : Nat) (s : St), i + rest.length ≤ n →
      WritesIn s (visualLoop g n done i s rest).1 (visProg n i) 40 := by
  intro rest
  induction rest with
  | nil =>
    intro done i s _
    refine writesIn_of_eq ?_ _ _
    simp [visualLoop, St.updateJob]
  | cons sc rest ih =>
    intro done i s h
    have h2 : i + rest.length + 1 ≤ n := by simpa using h
    have hle : i + 1 + rest.length ≤ n := by omega
    have hub : visProg n i ≤ 40 := visProg_ub n i (by omega)
    have step : ∀ (t : St) (d2 : List Scene) (u : JobUpdate),
        u.progressPercent = some (visProg n i) → t.progressTrace = s.progressTrace →
        WritesIn s (visualLoop g n d2 (i + 1) (St.updateLastProgress (St.updateJob t u)) rest).1
          (visProg n i) 40 := by
      intro t d2 u hu ht
      have h1 : WritesIn s (St.updateLastProgress (St.updateJob t u))
          (visProg n i) (visProg n i) :=
        ⟨[visProg n i], by simp [trace_updateLastProgress, St.updateJob, hu, ht], by simp, by simp⟩
      exact writesIn_comp h1 (ih d2 (i + 1) _ hle) (visProg_mono n i) (visProg_mono n i) hub
    by_cases hc : s.job.cancelRequested
    · simp only [visualLoop, hc, if_true]
      exact writesIn_of_eq rfl _ _
    · by_cases hsk : truthyStr sc.backgroundAssetUrl
      · simp only [visualLoop, hc, hsk, if_false, if_true, Bool.false_eq_true]
        exact writesIn_mono (ih (sc :: done) (i + 1) s hle) (visProg_mono n i) le_rfl
      · cases hp : g.imagePrompt i with
        | error e =>
          simp only [visualLoop, hc, hsk, hp, if_false, Bool.false_eq_true]
          exact writesIn_of_eq rfl _ _
        | ok prompt =>
          cases hl2 : g.assetLookup ("/objects/generated/" ++ s.jobId ++ "/images/scene_"
              ++ toString i ++ "_" ++ g.hashFn (prompt ++ s.jobId ++ toString i) ++ ".png") with
          | some url =>
            simp only [visualLoop, hc, hsk, hp, hl2, if_false, Bool.false_eq_true]
            exact step _ _ _ rfl rfl
          | none =>
            cases himg : g.image i with
            | ok url =>
              simp only [visualLoop, hc, hsk, hp, hl2, himg, if_false, Bool.false_eq_true]
              exact step _ _ _ rfl rfl
            | error e =>
              simp only [visualLoop, hc, hsk, hp, hl2, himg, if_false, Bool.false_eq_true]
              exact step _ _ _ rfl rfl

/-- The audio generation loop writes ascending progress values within
`[audProg n i, 55]`; the reconciliation loop after it writes none. -/
theorem audGenLoop_writes (g : Gen) (n : Nat) (voice : String) :
    ∀ (rest done : List Scene) (i : Nat) (s : St), i + rest.length ≤ n →
      WritesIn s (audGenLoop g n voice done i s rest).1 (audProg n i) 55 := by
  intro rest
  induction rest with
  | nil =>
    intro done i s _
    cases hdl : durLoop g 0 0 0 done.reverse with
    | error e =>
      simp only [audGenLoop, hdl]
      exact writesIn_of_eq rfl _ _
    | ok pr =>
      obtain ⟨ws2, total⟩ := pr
      simp only [audGenLoop, hdl]
      refine writesIn_of_eq ?_ _ _
      simp [St.updateJob]
  | cons sc rest ih =>
    intro done i s h
    have h2 : i + rest.length + 1 ≤ n := by simpa using h
    have hle : i + 1 + rest.length ≤ n := by omega
    have hub : audProg n i ≤ 55 := audProg_ub n i (by omega)
    have step : ∀ (t : St) (d2 : List Scene) (u : JobUpdate),
        u.progressPercent = some (audProg n i) → t.progressTrace = s.progressTrace →
        WritesIn s (audGenLoop g n voice d2 (i + 1) (St.updateLastProgress (St.updateJob t u)) rest).1
          (audProg n i) 55 := by
      intro t d2 u hu ht
      have h1 : WritesIn s (St.updateLastProgress (St.updateJob t u))
          (audProg n i) (audProg n i) :=
        ⟨[audProg n i], by simp [trace_updateLastProgress, St.updateJob, hu, ht], by simp, by simp⟩
      exact writesIn_comp h1 (ih d2 (i + 1) _ hle) (audProg_mono n i) (audProg_mono n i) hub
    by_cases hc : s.job.cancelRequested
    · simp only [audGenLoop, hc, if_true]
      exact writesIn_of_eq rfl _ _
    · by_cases hsk : truthyStr sc.audioAssetUrl
      · simp only [audGenLoop, hc, hsk, if_false, if_true, Bool.false_eq_true]
        exact writesIn_mono (ih (sc :: done) (i + 1) s hle) (audProg_mono n i) le_rfl
      · by_cases htx : jsTrim (audioTextOf sc) ≠ ""
        · cases hl2 : g.assetLookup ("/objects/generated/" ++ s.jobId ++ "/audio/voice_"
              ++ toString i ++ "_" ++ g.hashFn (audioTextOf sc ++ voice ++ s.jobId) ++ ".mp3") with
          | some url =>
            simp only [audGenLoop, hc, hsk, if_false, Bool.false_eq_true]
            rw [if_pos htx]
            simp only [hl2]
            exact step _ _ _ rfl rfl
          | none =>
            cases hsp : g.speech i with
            | ok url =>
              simp only [audGenLoop, hc, hsk, if_false, Bool.false_eq_true]
              rw [if_pos htx]
              simp only [hl2, hsp]
              exact step _ _ _ rfl rfl
            | error e =>
              simp only [audGenLoop, hc, hsk, if_false, Bool.false_eq_true]
              rw [if_pos htx]
              simp only [hl2, hsp]
              exact step _ _ _ rfl rfl
        · simp only [audGenLoop, hc, hsk, if_false, Bool.false_eq_true]
          rw [if_neg htx]
          exact step _ _ _ rfl rfl

/-- Stage 1 writes exactly the value 10 (or nothing on failure). -/
theorem scriptFn_writes (g : Gen) (s : St) : WritesIn s (scriptFn g s).1 10 10 := by
  cases hs : g.script with
  | error e =>
    simp only [scriptFn, hs]
    refine writesIn_of_eq ?_ _ _
    rw [trace_extCall]
  | ok p =>
    obtain ⟨scr, scs⟩ := p
    simp only [scriptFn, hs]
    refine ⟨[10], ?_, by simp, by simp⟩
    rw [trace_updateLastProgress]
    simp [St.updateJob, trace_extCall]

/-- Stage 2 writes ascending values within [10, 40]. -/
theorem visualFn_writes (g : Gen) (s : St) : WritesIn s (visualFn g s).1 10 40 := by
  simp only [visualFn]
  set s2 := reloadScenes (St.updateJob s { status := some JobStatus.generatingAssets }) with hs2
  have htr : s2.progressTrace = s.progressTrace := by
    rw [hs2, trace_reloadScenes]
    simp [St.updateJob]
  cases hctx : s2.ctxScenes with
  | none =>
    simp only [hctx]
    exact writesIn_of_eq htr _ _
  | some l =>
    simp only [hctx]
    by_cases hlen : 0 < l.length
    · rw [if_pos hlen]
      have hin := visualLoop_writes g l.length l [] 0 s2 (by simp)
      exact writesIn_comp (writesIn_of_eq htr 10 10) hin (visProg_lb _ _) (visProg_lb _ _)
        (by norm_num)
    · rw [if_neg hlen]
      exact writesIn_of_eq htr _ _

/-- Stage 3 writes ascending values within [40, 55]. -/
theorem audioFn_writes (g : Gen) (s : St) : WritesIn s (audioFn g s).1 40 55 := by
  simp only [audioFn]
  set s2 := reloadScenes (St.updateJob s { status := some JobStatus.generatingAssets }) with hs2
  have htr : s2.progressTrace = s.progressTrace := by
    rw [hs2, trace_reloadScenes]
    simp [St.updateJob]
  by_cases hscr : truthyStr s2.ctxScript = true
  · rw [if_pos hscr]
    cases hctx : s2.ctxScenes with
    | none =>
      simp only [hctx]
      exact writesIn_of_eq htr _ _
    | some l =>
      simp only [hctx]
      by_cases hlen : 0 < l.length
      · rw [if_pos hlen]
        have hin := audGenLoop_writes g l.length (jsOrStr s2.job.settings.voiceModel "nova")
          l [] 0 s2 (by simp)
        exact writesIn_comp (writesIn_of_eq htr 40 40) hin (audProg_lb _ _) (audProg_lb _ _)
          (by norm_num)
      · rw [if_neg hlen]
        exact writesIn_of_eq htr _ _
  · rw [if_neg hscr]
    exact writesIn_of_eq htr _ _

/-- Stage 4 writes exactly the value 95 (or nothing). -/
theorem videoFn_writes (g : Gen) (s : St) : WritesIn s (videoFn g s).1 95 95 := by
  simp only [videoFn]
  set s2 := reloadScenes (St.updateJob s { status := some JobStatus.renderingVideo }) with hs2
  have htr : s2.progressTrace = s.progressTrace := by
    rw [hs2, trace_reloadScenes]
    simp [St.updateJob]
  cases hctx : s2.ctxScenes with
  | none =>
    simp only [hctx]
    exact writesIn_of_eq htr _ _
  | some l =>
    simp only [hctx]
    by_cases hlen : 0 < l.length
    · rw [if_pos hlen]
      cases hrv : renderVideo g s2.jobId l with
      | error e =>
        simp only [hrv]
        exact writesIn_of_eq (by rw [trace_extCall, htr]) _ _
      | ok res =>
        simp only [hrv]
        by_cases hv : res.integrityCheck.valid = true
        · rw [if_neg (by simp [hv])]
          refine ⟨[95], ?_, by simp, by simp⟩
          rw [trace_updateLastProgress]
          simp [St.updateJob, trace_createAsset, trace_extCall, htr]
        · rw [if_pos (by simp [hv])]
          exact writesIn_of_eq (by rw [trace_extCall, htr]) _ _
    · rw [if_neg hlen]
      exact writesIn_of_eq htr _ _

/-- Stage 5 writes exactly the value 100 (or nothing). -/
theorem captionFn_writes (g : Gen) (s : St) : WritesIn s (captionFn g s).1 100 100 := by
  simp only [captionFn]
  set s1 := St.updateJob s { status := some JobStatus.generatingCaption } with hs1
  have htr : s1.progressTrace = s.progressTrace := by
    rw [hs1]
    simp [St.updateJob]
  by_cases hscript : jsOrStr s1.job.scriptText (jsOrStr s1.ctxScript "") ≠ ""
  · rw [if_pos hscript]
    cases hct : g.captionTags with
    | error e =>
      simp only [hct]
      exact writesIn_of_eq (by rw [trace_extCall, htr]) _ _
    | ok p =>
      obtain ⟨cap, tags⟩ := p
      simp only [hct]
      refine ⟨[100], ?_, by simp, by simp⟩
      rw [trace_updateLastProgress]
      simp [St.updateJob, trace_extCall, htr]
  · rw [if_neg hscript]
    exact writesIn_of_eq htr _ _

/-- runStep keeps the write discipline of its stage function. -/
theorem runStep_writes (stage : StepType) (fn : St → St × Except String Unit)
    (lo hi : Int) (hlohi : lo ≤ hi) (hfn : ∀ t, WritesIn t (fn t).1 lo hi) (s : St) :
    WritesIn s (runStep stage fn s).1 lo hi := by
  unfold runStep
  cases hf : s.steps.find? (fun r => decide (r.stepType = stage)) with
  | none => exact writesIn_of_eq rfl _ _
  | some stp =>
    simp only
    by_cases hcomp : stp.status = StepStatus.completed
    · rw [if_pos hcomp]
      exact writesIn_of_eq rfl _ _
    · rw [if_neg hcomp]
      have h1 : WritesIn s (runStepStart s stp) lo lo := writesIn_of_eq rfl _ _
      have h2 : WritesIn (runStepStart s stp) (fn (runStepStart s stp)).1 lo hi :=
        hfn (runStepStart s stp)
      cases hrun : fn (runStepStart s stp) with
      | mk t res =>
        rw [hrun] at h2
        cases res with
        | ok _ =>
          simp only
          have h3 : WritesIn t (saveStepTiming (St.updateStep t stp.id
              { status := some StepStatus.completed, finishedAt := some (some t.now),
                durationMs := some (some 0) }) s.job.contentType stage 0) hi hi :=
            writesIn_of_eq (by rw [trace_saveStepTiming, trace_updateStep]) _ _
          exact writesIn_comp (writesIn_comp h1 h2 le_rfl le_rfl hlohi) h3 hlohi le_rfl le_rfl
        | error e =>
          simp only
          have h3 : WritesIn t (St.updateStep t stp.id
              { status := some StepStatus.failed, finishedAt := some (some t.now),
                message := some (some e) }) hi hi :=
            writesIn_of_eq (by rw [trace_updateStep]) _ _
          exact writesIn_comp (writesIn_comp h1 h2 le_rfl le_rfl hlohi) h3 hlohi le_rfl le_rfl

/-- Sequencing write segments through seqE. -/
theorem seqE_writes (s0 : St) (lo hi lo2 hi2 : Int) (r : St × Except String Unit)
    (f : St → St × Except String Unit)
    (h1 : WritesIn s0 r.1 lo hi) (h2 : ∀ t, WritesIn t (f t).1 lo2 hi2)
    (hac : lo ≤ lo2) (hbc : hi ≤ lo2) (hbd : hi ≤ hi2) :
    WritesIn s0 (seqE r f).1 lo hi2 := by
  rcases r with ⟨t, res⟩
  cases res with
  | ok _ => exact writesIn_comp h1 (h2 t) hac hbc hbd
  | error e => exact writesIn_mono h1 le_rfl hbd

/-- Write bounds of the pipeline tails, innermost outward. -/
theorem pipeTail5_writes (g : Gen) (t : St) : WritesIn t (pipeTail5 g t).1 100 100 := by
  unfold pipeTail5
  refine seqE_writes _ 100 100 100 100 _ _ ?_ ?_ le_rfl le_rfl le_rfl
  · exact runStep_writes _ _ 100 100 le_rfl (captionFn_writes g) t
  · intro t9
    exact writesIn_updateJob rfl le_rfl le_rfl

theorem pipeTail4_writes (g : Gen) (t : St) : WritesIn t (pipeTail4 g t).1 95 100 := by
  unfold pipeTail4
  refine seqE_writes _ 95 95 100 100 _ _ ?_ ?_ (by norm_num) (by norm_num) (by norm_num)
  · exact runStep_writes _ _ 95 95 le_rfl (videoFn_writes g) t
  · intro t7
    refine seqE_writes _ 100 100 100 100 _ _ ?_ ?_ le_rfl le_rfl le_rfl
    · rw [checkCancel_fst]
      exact writesIn_of_eq rfl _ _
    · exact pipeTail5_writes g

theorem pipeTail3_writes (g : Gen) (t : St) : WritesIn t (pipeTail3 g t).1 40 100 := by
  unfold pipeTail3
  refine seqE_writes _ 40 55 95 100 _ _ ?_ ?_ (by norm_num) (by norm_num) (by norm_num)
  · exact runStep_writes _ _ 40 55 (by norm_num) (audioFn_writes g) t
  · intro t5
    refine seqE_writes _ 95 95 95 100 _ _ ?_ ?_ le_rfl le_rfl (by norm_num)
    · rw [checkCancel_fst]
      exact writesIn_of_eq rfl _ _
    · exact pipeTail4_writes g

theorem pipeTail2_writes (g : Gen) (t : St) : WritesIn t (pipeTail2 g t).1 10 100 := by
  unfold pipeTail2
  refine seqE_writes _ 10 40 40 100 _ _ ?_ ?_ (by norm_num) (by norm_num) (by norm_num)
  · exact runStep_writes _ _ 10 40 (by norm_num) (visualFn_writes g) t
  · intro t3
    refine seqE_writes _ 40 40 40 100 _ _ ?_ ?_ le_rfl le_rfl (by norm_num)
    · rw [checkCancel_fst]
      exact writesIn_of_eq rfl _ _
    · exact pipeTail3_writes g

theorem pipeTail1_writes (g : Gen) (t : St) : WritesIn t (pipeTail1 g t).1 10 100 := by
  unfold pipeTail1
  refine seqE_writes _ 10 10 10 100 _ _ ?_ ?_ le_rfl le_rfl (by norm_num)
  · exact runStep_writes _ _ 10 10 le_rfl (scriptFn_writes g) t
  · intro t1
    refine seqE_writes _ 10 10 10 100 _ _ ?_ ?_ le_rfl le_rfl (by norm_num)
    · rw [checkCancel_fst]
      exact writesIn_of_eq rfl _ _
    · exact pipeTail2_writes g

/-- The full pipeline writes ascending values within [0, 100]. -/
theorem pipelineBody_writes (g : Gen) (s : St) : WritesIn s (pipelineBody g s).1 0 100 := by
  simp only [pipelineBody]
  refine seqE_writes _ 0 0 10 100 _ _ ?_ ?_ (by norm_num) (by norm_num) (by norm_num)
  · rw [checkCancel_fst]
    refine ⟨[0], ?_, by simp, by simp⟩
    rw [trace_updateLastProgress]
    simp [St.updateJob]
  · exact pipeTail1_writes g

/-- Claim C8 as amended: within one processJob invocation the recorded
progressPercent updates stay within 0..100 and are non-decreasing; the
invocation begins by resetting progress to 0, so a resumed job may first
show a drop to 0 relative to its pre-crash value (see the
counterexample). -/
theorem claim_C8_progress_monotone (g : Gen) (wk : String) (s : St) :
    ∃ w, (processJob g wk s).progressTrace = s.progressTrace ++ w ∧
      List.Pairwise (fun a b => a ≤ b) w ∧ ∀ v ∈ w, 0 ≤ v ∧ v ≤ 100 := by
  unfold processJob
  by_cases hA : (acquireJobLock s.job wk LEASE_SECONDS s.now).1 = true
  · rw [if_pos hA]
    have h0 : WritesIn s { s with job := (acquireJobLock s.job wk LEASE_SECONDS s.now).2 } 0 0 :=
      writesIn_of_eq rfl _ _
    have h1 := pipelineBody_writes g { s with job := (acquireJobLock s.job wk LEASE_SECONDS s.now).2 }
    have ht : WritesIn s (pipelineBody g
        { s with job := (acquireJobLock s.job wk LEASE_SECONDS s.now).2 }).1 0 100 :=
      writesIn_comp h0 h1 le_rfl le_rfl (by norm_num)
    cases hb : pipelineBody g { s with job := (acquireJobLock s.job wk LEASE_SECONDS s.now).2 } with
    | mk t res =>
      rw [hb] at ht
      cases res with
      | ok _ =>
        simp only [jobCatch, hb]
        obtain ⟨w, hw, hp2, hbnd⟩ := ht
        exact ⟨w, by simpa using hw, hp2, hbnd⟩
      | error e =>
        simp only [jobCatch, hb]
        obtain ⟨w, hw, hp2, hbnd⟩ := ht
        refine ⟨w, ?_, hp2, hbnd⟩
        simpa [jobFail, St.updateJob] using hw
  · rw [if_neg hA]
    exact ⟨[], by simp, by simp, by simp⟩

/-- A scene whose image and audio already exist with a two-second clip. -/
def sceneDone : Scene :=
  { scene0 with
    backgroundAssetUrl := some "img.png"
    audioAssetUrl := some "voice.mp3"
    audioDurationSeconds := some 2
    startTime := 0
    endTime := 2 }

/-- A job resumed at 55 percent with the script and scenes recorded. -/
def job8 : Job :=
  { job0 with
    progressPercent := 55
    scriptText := some "the script"
    scenes := some [sceneDone]
    status := JobStatus.generatingAssets }

/-- First three steps completed, render and caption still queued. -/
def f8 : StepType → StepStatus := fun t =>
  if t = StepType.video ∨ t = StepType.caption then StepStatus.queued else StepStatus.completed

/-- The resumed worker state. -/
def st8 : St := { st0 with job := job8, steps := mkSteps f8 }

/-- Counterexample to claim C8 as stated: resuming a job that already
reads 55 percent first records progress 0 (a decrease visible to any
reader), even though the job then completes successfully. -/
theorem claim_C8_counterexample :
    st8.job.progressPercent = 55 ∧
    (processJob gen0 "w" st8).job.status = JobStatus.completed ∧
    (processJob gen0 "w" st8).progressTrace.head? = some 0 := by
  refine ⟨by decide, by decide, by decide⟩

/-! ## Claim C1: stage-function success and frame lemmas

Under oracle hypotheses that make every stage succeed (per-scene image
and speech failures are allowed, being swallowed inside the loops), each
stage body returns ok and leaves the step rows, the stage-run counter and
the cancellation flag untouched. -/

/-- Oracle success hypotheses: script, image prompts, duration probes,
render chain with a valid output, and caption all succeed. -/
def GenTotal (g : Gen) : Prop :=
  (∃ p, g.script = Except.ok p) ∧
  (∀ i, ∃ x, g.imagePrompt i = Except.ok x) ∧
  (∀ i, ∃ d, 0 < d ∧ g.audioProbe i = Except.ok d) ∧
  (∃ pr stt, g.renderExec = Except.ok (pr, stt) ∧ (checkVideoIntegrity pr stt).valid = true) ∧
  (∃ c, g.captionTags = Except.ok c)

/-- The success-and-frame contract of a stage body. -/
def StageTotal (fn : St → St × Except String Unit) : Prop :=
  ∀ t : St, t.job.cancelRequested = false →
    (fn t).2 = Except.ok () ∧ (fn t).1.steps = t.steps ∧
    (fn t).1.stageFnRuns = t.stageFnRuns ∧ (fn t).1.job.cancelRequested = false

theorem scriptFn_total (g : Gen) (hg : ∃ p, g.script = Except.ok p) :
    StageTotal (scriptFn g) := by
  intro t hc
  obtain ⟨⟨scr, scs⟩, hs⟩ := hg
  simp [scriptFn, hs, St.extCall, St.updateJob, St.updateLastProgress, applyJobUpdate, hc]

theorem visualLoop_total (g : Gen) (hpr : ∀ i, ∃ x, g.imagePrompt i = Except.ok x) (n : Nat) :
    ∀ (rest done : List Scene) (i : Nat) (s : St), s.job.cancelRequested = false →
      (visualLoop g n done i s rest).2 = Except.ok () ∧
      (visualLoop g n done i s rest).1.steps = s.steps ∧
      (visualLoop g n done i s rest).1.stageFnRuns = s.stageFnRuns ∧
      (visualLoop g n done i s rest).1.job.cancelRequested = false := by
  intro rest
  induction rest with
  | nil =>
    intro done i s hc
    simp [visualLoop, St.updateJob, applyJobUpdate, hc]
  | cons sc rest ih =>
    intro done i s hc
    have hcn : ¬ s.job.cancelRequested = true := by simp [hc]
    have step : ∀ (t : St) (d2 : List Scene) (u : JobUpdate), u.cancelRequested = none →
        t.steps = s.steps → t.stageFnRuns = s.stageFnRuns → t.job.cancelRequested = false →
        (visualLoop g n d2 (i + 1) (St.updateLastProgress (St.updateJob t u)) rest).2
          = Except.ok () ∧
        (visualLoop g n d2 (i + 1) (St.updateLastProgress (St.updateJob t u)) rest).1.steps
          = s.steps ∧
        (visualLoop g n d2 (i + 1) (St.updateLastProgress (St.updateJob t u)) rest).1.stageFnRuns
          = s.stageFnRuns ∧
        (visualLoop g n d2 (i + 1)
          (St.updateLastProgress (St.updateJob t u)) rest).1.job.cancelRequested = false := by
      intro t d2 u hu hts htr htc
      have hc2 : (St.updateLastProgress (St.updateJob t u)).job.cancelRequested = false := by
        simp [St.updateLastProgress, St.updateJob, applyJobUpdate, hu, htc]
      obtain ⟨r1, r2, r3, r4⟩ := ih d2 (i + 1) (St.updateLastProgress (St.updateJob t u)) hc2
      refine ⟨r1, ?_, ?_, r4⟩
      · rw [r2]
        exact hts
      · rw [r3]
        exact htr
    by_cases hsk : truthyStr sc.backgroundAssetUrl
    · simp only [visualLoop, hcn, hsk, if_false, if_true, Bool.false_eq_true]
      exact ih (sc :: done) (i + 1) s hc
    · obtain ⟨prompt, hp⟩ := hpr i
      cases hl2 : g.assetLookup ("/objects/generated/" ++ s.jobId ++ "/images/scene_"
          ++ toString i ++ "_" ++ g.hashFn (prompt ++ s.jobId ++ toString i) ++ ".png") with
      | some url =>
        simp only [visualLoop, hcn, hsk, hp, hl2, if_false, Bool.false_eq_true]
        exact step _ _ _ rfl rfl rfl hc
      | none =>
        cases himg : g.image i with
        | ok url =>
          simp only [visualLoop, hcn, hsk, hp, hl2, himg, if_false, Bool.false_eq_true]
          exact step _ _ _ rfl rfl rfl hc
        | error e =>
          simp only [visualLoop, hcn, hsk, hp, hl2, himg, if_false, Bool.false_eq_true]
          exact step _ _ _ rfl rfl rfl hc

theorem visualFn_total (g : Gen) (hpr : ∀ i, ∃ x, g.imagePrompt i = Except.ok x) :
    StageTotal (visualFn g) := by
  intro t hc
  simp only [visualFn]
  set s2 := reloadScenes (St.updateJob t { status := some JobStatus.generatingAssets }) with hs2
  have h2steps : s2.steps = t.steps := by
    rw [hs2, steps_reloadScenes]
    rfl
  have h2runs : s2.stageFnRuns = t.stageFnRuns := by
    rw [hs2, runs_reloadScenes]
    rfl
  have h2c : s2.job.cancelRequested = false := by
    rw [hs2, job_reloadScenes]
    simp [St.updateJob, applyJobUpdate, hc]
  cases hctx : s2.ctxScenes with
  | none =>
    simp only [hctx]
    exact ⟨by trivial, h2steps, h2runs, h2c⟩
  | some l =>
    simp only [hctx]
    by_cases hlen : 0 < l.length
    · rw [if_pos hlen]
      obtain ⟨r1, r2, r3, r4⟩ := visualLoop_total g hpr l.length l [] 0 s2 h2c
      exact ⟨r1, by rw [r2, h2steps], by rw [r3, h2runs], r4⟩
    · rw [if_neg hlen]
      exact ⟨by trivial, h2steps, h2runs, h2c⟩

theorem durLoop_total (g : Gen) (hpro : ∀ i, ∃ d, 0 < d ∧ g.audioProbe i = Except.ok d) :
    ∀ (l : List Scene) (i consec : Nat) (cur : ℚ),
      ∃ pr, durLoop g i consec cur l = Except.ok pr := by
  intro l
  induction l with
  | nil => intro i consec cur; exact ⟨([], cur), rfl⟩
  | cons sc rest ih =>
    intro i consec cur
    have hds : ∃ p, durStep g i consec sc = Except.ok p := by
      unfold durStep
      by_cases hsk : truthyStr sc.audioAssetUrl
      · obtain ⟨d, hd, hpe⟩ := hpro i
        rw [if_pos hsk]
        exact ⟨({ sc with audioDurationSeconds := some d }, 0),
          by simp [getAudioDurationM, hpe, hd]⟩
      · rw [if_neg hsk]
        exact ⟨_, rfl⟩
    obtain ⟨⟨sc1, consec1⟩, hds⟩ := hds
    obtain ⟨⟨l2, total⟩, hrec⟩ := ih (i + 1) consec1 (cur + jsOrQ sc1.audioDurationSeconds 5)
    have hstep : durLoop g i consec cur (sc :: rest) = Except.ok
        ({ sc1 with startTime := cur
                    endTime := cur + jsOrQ sc1.audioDurationSeconds 5 } :: l2, total) := by
      simp [durLoop, hds, hrec]
    exact ⟨_, hstep⟩

theorem audGenLoop_total (g : Gen) (hpro : ∀ i, ∃ d, 0 < d ∧ g.audioProbe i = Except.ok d)
    (n : Nat) (voice : String) :
    ∀ (rest done : List Scene) (i : Nat) (s : St), s.job.cancelRequested = false →
      (audGenLoop g n voice done i s rest).2 = Except.ok () ∧
      (audGenLoop g n voice done i s rest).1.steps = s.steps ∧
      (audGenLoop g n voice done i s rest).1.stageFnRuns = s.stageFnRuns ∧
      (audGenLoop g n voice done i s rest).1.job.cancelRequested = false := by
  intro rest
  induction rest with
  | nil =>
    intro done i s hc
    obtain ⟨⟨ws2, total⟩, hdl⟩ := durLoop_total g hpro done.reverse 0 0 0
    simp only [audGenLoop, hdl]
    simp [St.updateJob, applyJobUpdate, hc]
  | cons sc rest ih =>
    intro done i s hc
    have hcn : ¬ s.job.cancelRequested = true := by simp [hc]
    have step : ∀ (t : St) (d2 : List Scene) (u : JobUpdate), u.cancelRequested = none →
        t.steps = s.steps → t.stageFnRuns = s.stageFnRuns → t.job.cancelRequested = false →
        (audGenLoop g n voice d2 (i + 1) (St.updateLastProgress (St.updateJob t u)) rest).2
          = Except.ok () ∧
        (audGenLoop g n voice d2 (i + 1) (St.updateLastProgress (St.updateJob t u)) rest).1.steps
          = s.steps ∧
        (audGenLoop g n voice d2 (i + 1)
          (St.updateLastProgress (St.updateJob t u)) rest).1.stageFnRuns = s.stageFnRuns ∧
        (audGenLoop g n voice d2 (i + 1)
          (St.updateLastProgress (St.updateJob t u)) rest).1.job.cancelRequested = false := by
      intro t d2 u hu hts htr htc
      have hc2 : (St.updateLastProgress (St.updateJob t u)).job.cancelRequested = false := by
        simp [St.updateLastProgress, St.updateJob, applyJobUpdate, hu, htc]
      obtain ⟨r1, r2, r3, r4⟩ := ih d2 (i + 1) (St.updateLastProgress (St.updateJob t u)) hc2
      refine ⟨r1, ?_, ?_, r4⟩
      · rw [r2]
        exact hts
      · rw [r3]
        exact htr
    by_cases hsk : truthyStr sc.audioAssetUrl
    · simp only [audGenLoop, hcn, hsk, if_false, if_true, Bool.false_eq_true]
      exact ih (sc :: done) (i + 1) s hc
    · by_cases htx : jsTrim (audioTextOf sc) ≠ ""
      · cases hl2 : g.assetLookup ("/objects/generated/" ++ s.jobId ++ "/audio/voice_"
            ++ toString i ++ "_" ++ g.hashFn (audioTextOf sc ++ voice ++ s.jobId) ++ ".mp3") with
        | some url =>
          simp only [audGenLoop, hcn, hsk, if_false, Bool.false_eq_true]
          rw [if_pos htx]
          simp only [hl2]
          exact step _ _ _ rfl rfl rfl hc
        | none =>
          cases hsp : g.speech i with
          | ok url =>
            simp only [audGenLoop, hcn, hsk, if_false, Bool.false_eq_true]
            rw [if_pos htx]
            simp only [hl2, hsp]
            exact step _ _ _ rfl rfl rfl hc
          | error e =>
            simp only [audGenLoop, hcn, hsk, if_false, Bool.false_eq_true]
            rw [if_pos htx]
            simp only [hl2, hsp]
            exact step _ _ _ rfl rfl rfl hc
      · simp only [audGenLoop, hcn, hsk, if_false, Bool.false_eq_true]
        rw [if_neg htx]
        exact step _ _ _ rfl rfl rfl hc

theorem audioFn_total (g : Gen) (hpro : ∀ i, ∃ d, 0 < d ∧ g.audioProbe i = Except.ok d) :
    StageTotal (audioFn g) := by
  intro t hc
  simp only [audioFn]
  set s2 := reloadScenes (St.updateJob t { status := some JobStatus.generatingAssets }) with hs2
  have h2steps : s2.steps = t.steps := by
    rw [hs2, steps_reloadScenes]
    rfl
  have h2runs : s2.stageFnRuns = t.stageFnRuns := by
    rw [hs2, runs_reloadScenes]
    rfl
  have h2c : s2.job.cancelRequested = false := by
    rw [hs2, job_reloadScenes]
    simp [St.updateJob, applyJobUpdate, hc]
  by_cases hscr : truthyStr s2.ctxScript = true
  · rw [if_pos hscr]
    cases hctx : s2.ctxScenes with
    | none =>
      simp only [hctx]
      exact ⟨by trivial, h2steps, h2runs, h2c⟩
    | some l =>
      simp only [hctx]
      by_cases hlen : 0 < l.length
      · rw [if_pos hlen]
        obtain ⟨r1, r2, r3, r4⟩ := audGenLoop_total g hpro l.length
          (jsOrStr s2.job.settings.voiceModel "nova") l [] 0 s2 h2c
        exact ⟨r1, by rw [r2, h2steps], by rw [r3, h2runs], r4⟩
      · rw [if_neg hlen]
        exact ⟨by trivial, h2steps, h2runs, h2c⟩
  · rw [if_neg hscr]
    exact ⟨by trivial, h2steps, h2runs, h2c⟩

theorem videoFn_total (g : Gen)
    (hr : ∃ pr stt, g.renderExec = Except.ok (pr, stt) ∧
      (checkVideoIntegrity pr stt).valid = true) :
    StageTotal (videoFn g) := by
  intro t hc
  obtain ⟨pr, stt, hexec, hvalid⟩ := hr
  simp only [videoFn]
  set s2 := reloadScenes (St.updateJob t { status := some JobStatus.renderingVideo }) with hs2
  have h2steps : s2.steps = t.steps := by
    rw [hs2, steps_reloadScenes]
    rfl
  have h2runs : s2.stageFnRuns = t.stageFnRuns := by
    rw [hs2, runs_reloadScenes]
    rfl
  have h2c : s2.job.cancelRequested = false := by
    rw [hs2, job_reloadScenes]
    simp [St.updateJob, applyJobUpdate, hc]
  cases hctx : s2.ctxScenes with
  | none =>
    simp only [hctx]
    exact ⟨by trivial, h2steps, h2runs, h2c⟩
  | some l =>
    simp only [hctx]
    by_cases hlen : 0 < l.length
    · rw [if_pos hlen]
      have hrv : renderVideo g s2.jobId l = Except.ok
          { videoUrl := "/objects/generated/" ++ s2.jobId ++ "/final.mp4"
            thumbnailUrl := "/objects/generated/" ++ s2.jobId ++ "/thumbnail.jpg"
            durationSeconds := renderTotal l
            integrityCheck := checkVideoIntegrity pr stt } := by
        simp [renderVideo, hexec]
      simp only [hrv]
      rw [if_neg (by simp [hvalid])]
      refine ⟨rfl, ?_, ?_, ?_⟩
      · rw [show (St.updateLastProgress (St.updateJob (St.createAsset (St.createAsset
          (St.extCall s2) _) _) _)).steps = s2.steps from rfl]
        exact h2steps
      · rw [show (St.updateLastProgress (St.updateJob (St.createAsset (St.createAsset
          (St.extCall s2) _) _) _)).stageFnRuns = s2.stageFnRuns from rfl]
        exact h2runs
      · simp [St.updateLastProgress, St.updateJob, applyJobUpdate, St.createAsset,
          St.extCall, h2c]
    · rw [if_neg hlen]
      exact ⟨by trivial, h2steps, h2runs, h2c⟩

theorem captionFn_total (g : Gen) (hcap : ∃ c, g.captionTags = Except.ok c) :
    StageTotal (captionFn g) := by
  intro t hc
  obtain ⟨⟨cap, tags⟩, hct⟩ := hcap
  simp only [captionFn]
  set s1 := St.updateJob t { status := some JobStatus.generatingCaption } with hs1
  have h1steps : s1.steps = t.steps := by rw [hs1]; rfl
  have h1runs : s1.stageFnRuns = t.stageFnRuns := by rw [hs1]; rfl
  have h1c : s1.job.cancelRequested = false := by
    rw [hs1]
    simp [St.updateJob, applyJobUpdate, hc]
  by_cases hscript : jsOrStr s1.job.scriptText (jsOrStr s1.ctxScript "") ≠ ""
  · rw [if_pos hscript]
    simp only [hct]
    refine ⟨by trivial, h1steps, h1runs, ?_⟩
    simp [St.updateLastProgress, St.updateJob, applyJobUpdate, St.extCall, h1c]
  · rw [if_neg hscript]
    exact ⟨rfl, h1steps, h1runs, h1c⟩

/-! ## Claim C1: counting stage-function runs across a resume

`stepsShape l f` says the step rows are the five canonical rows in
creation order with statuses given by `f`; `runStep` preserves the shape,
completing its own stage, and runs the stage function exactly when the
stage is not yet completed. -/

/-- Step index of a stage in creation order (initializeJobSteps). -/
def stageIdx : StepType → Nat
  | StepType.script => 0
  | StepType.visualAssets => 1
  | StepType.audioAssets => 2
  | StepType.video => 3
  | StepType.caption => 4

/-- The step rows are the five canonical rows in creation order, with
statuses given by `f`. -/
def stepsShape (l : List JobStep) (f : StepType → StepStatus) : Prop :=
  l.map (fun r => (r.id, r.stepType)) =
    [(0, StepType.script), (1, StepType.visualAssets), (2, StepType.audioAssets),
      (3, StepType.video), (4, StepType.caption)] ∧
  l.map JobStep.status =
    [f StepType.script, f StepType.visualAssets, f StepType.audioAssets,
      f StepType.video, f StepType.caption]

/-- Point-update of a status map. -/
def updStatus (f : StepType → StepStatus) (k : StepType) (v : StepStatus) :
    StepType → StepStatus :=
  fun c => if c = k then v else f c

theorem updStatus_ne (f : StepType → StepStatus) (k : StepType) (v : StepStatus)
    (c : StepType) (h : ¬ c = k) : updStatus f k v c = f c := by
  simp [updStatus, h]

theorem updStatus_overwrite (f : StepType → StepStatus) (k : StepType) (a b : StepStatus) :
    ∀ c, updStatus (updStatus f k a) k b c = updStatus f k b c := by
  intro c
  by_cases h : c = k <;> simp [updStatus, h]

theorem stepsShape_mkSteps (f : StepType → StepStatus) : stepsShape (mkSteps f) f :=
  ⟨rfl, rfl⟩

theorem stepsShape_congr (l : List JobStep) (f1 f2 : StepType → StepStatus)
    (h : stepsShape l f1) (he : ∀ c, f1 c = f2 c) : stepsShape l f2 := by
  obtain ⟨h1, h2⟩ := h
  refine ⟨h1, ?_⟩
  rw [h2, he, he, he, he, he]

theorem stepsShape_elim (l : List JobStep) (f : StepType → StepStatus) (h : stepsShape l f) :
    ∃ r0 r1 r2 r3 r4, l = [r0, r1, r2, r3, r4] ∧
      r0.id = 0 ∧ r0.stepType = StepType.script ∧ r0.status = f StepType.script ∧
      r1.id = 1 ∧ r1.stepType = StepType.visualAssets ∧
        r1.status = f StepType.visualAssets ∧
      r2.id = 2 ∧ r2.stepType = StepType.audioAssets ∧ r2.status = f StepType.audioAssets ∧
      r3.id = 3 ∧ r3.stepType = StepType.video ∧ r3.status = f StepType.video ∧
      r4.id = 4 ∧ r4.stepType = StepType.caption ∧ r4.status = f StepType.caption := by
  obtain ⟨h1, h2⟩ := h
  rcases l with _ | ⟨r0, _ | ⟨r1, _ | ⟨r2, _ | ⟨r3, _ | ⟨r4, _ | ⟨r5, rest⟩⟩⟩⟩⟩⟩
  · simp at h1
  · simp at h1
  · simp at h1
  · simp at h1
  · simp at h1
  · simp only [List.map_cons, List.map_nil, List.cons.injEq, Prod.mk.injEq,
      and_true] at h1 h2
    obtain ⟨⟨h0i, h0t⟩, ⟨h1i, h1t⟩, ⟨h2i, h2t⟩, ⟨h3i, h3t⟩, h4i, h4t⟩ := h1
    obtain ⟨h0s, h1s, h2s, h3s, h4s⟩ := h2
    exact ⟨r0, r1, r2, r3, r4, rfl, h0i, h0t, h0s, h1i, h1t, h1s, h2i, h2t, h2s,
      h3i, h3t, h3s, h4i, h4t, h4s⟩
  · simp at h1

theorem stepsShape_find (l : List JobStep) (f : StepType → StepStatus)
    (h : stepsShape l f) (k : StepType) :
    ∃ stp, l.find? (fun r => decide (r.stepType = k)) = some stp ∧
      stp.status = f k ∧ stp.id = stageIdx k := by
  obtain ⟨r0, r1, r2, r3, r4, hl, h0i, h0t, h0s, h1i, h1t, h1s, h2i, h2t, h2s,
    h3i, h3t, h3s, h4i, h4t, h4s⟩ := stepsShape_elim l f h
  subst hl
  cases k with
  | script => exact ⟨r0, by simp [List.find?, h0t], h0s, h0i⟩
  | visualAssets => exact ⟨r1, by simp [List.find?, h0t, h1t], h1s, h1i⟩
  | audioAssets => exact ⟨r2, by simp [List.find?, h0t, h1t, h2t], h2s, h2i⟩
  | video => exact ⟨r3, by simp [List.find?, h0t, h1t, h2t, h3t], h3s, h3i⟩
  | caption => exact ⟨r4, by simp [List.find?, h0t, h1t, h2t, h3t, h4t], h4s, h4i⟩

theorem stepsShape_update (l : List JobStep) (f : StepType → StepStatus)
    (h : stepsShape l f) (k : StepType) (u : StepUpdate) (v : StepStatus)
    (hu : u.status = some v) :
    stepsShape (l.map fun r => if r.id = stageIdx k then applyStepUpdate r u else r)
      (updStatus f k v) := by
  obtain ⟨r0, r1, r2, r3, r4, hl, h0i, h0t, h0s, h1i, h1t, h1s, h2i, h2t, h2s,
    h3i, h3t, h3s, h4i, h4t, h4s⟩ := stepsShape_elim l f h
  subst hl
  cases k <;>
    simp [stepsShape, updStatus, applyStepUpdate, stageIdx, hu, h0i, h0t, h0s,
      h1i, h1t, h1s, h2i, h2t, h2s, h3i, h3t, h3s, h4i, h4t, h4s]

theorem stepsShape_updateStep (s : St) (f : StepType → StepStatus) (k : StepType)
    (hsh : stepsShape s.steps f) (i : Nat) (hi : i = stageIdx k) (u : StepUpdate)
    (v : StepStatus) (hu : u.status = some v) :
    stepsShape (St.updateStep s i u).steps (updStatus f k v) := by
  subst hi
  exact stepsShape_update s.steps f hsh k u v hu

theorem steps_saveStepTiming (s : St) (c : String) (st : StepType) (d : ℚ) :
    (saveStepTiming s c st d).steps = s.steps := by
  simp only [saveStepTiming]
  split <;> rfl

theorem runs_saveStepTiming (s : St) (c : String) (st : StepType) (d : ℚ) :
    (saveStepTiming s c st d).stageFnRuns = s.stageFnRuns := by
  simp only [saveStepTiming]
  split <;> rfl

theorem job_saveStepTiming (s : St) (c : String) (st : StepType) (d : ℚ) :
    (saveStepTiming s c st d).job = s.job := by
  simp only [saveStepTiming]
  split <;> rfl

theorem runs_updateStep (s : St) (i : Nat) (u : StepUpdate) :
    (St.updateStep s i u).stageFnRuns = s.stageFnRuns := rfl

theorem job_updateStep (s : St) (i : Nat) (u : StepUpdate) :
    (St.updateStep s i u).job = s.job := rfl

theorem seqE_of_ok (r : St × Except String Unit) (f : St → St × Except String Unit)
    (h : r.2 = Except.ok ()) : seqE r f = f r.1 := by
  obtain ⟨s, res⟩ := r
  simp only at h
  subst h
  rfl

theorem seqE_ok (t : St) (f : St → St × Except String Unit) :
    seqE (t, Except.ok ()) f = f t := rfl

theorem checkCancel_ok (s : St) (h : s.job.cancelRequested = false) :
    checkCancel s = (s, Except.ok ()) := by
  simp [checkCancel, h]

theorem runStep_count (stage : StepType) (fn : St → St × Except String Unit)
    (f : StepType → StepStatus) (t : St) (hsh : stepsShape t.steps f)
    (hc : t.job.cancelRequested = false) (hfn : StageTotal fn) :
    (runStep stage fn t).2 = Except.ok () ∧
    stepsShape (runStep stage fn t).1.steps (updStatus f stage StepStatus.completed) ∧
    (runStep stage fn t).1.stageFnRuns =
      t.stageFnRuns + (if f stage = StepStatus.completed then 0 else 1) ∧
    (runStep stage fn t).1.job.cancelRequested = false := by
  obtain ⟨stp, hfind, hst, hid⟩ := stepsShape_find t.steps f hsh stage
  simp only [runStep, hfind]
  by_cases hdone : stp.status = StepStatus.completed
  · rw [if_pos hdone]
    have hfs : f stage = StepStatus.completed := by rw [← hst, hdone]
    obtain ⟨ha, hb⟩ := hsh
    refine ⟨rfl, ⟨ha, ?_⟩, by simp [hfs], hc⟩
    rw [hb]
    cases stage <;> simp [updStatus, hfs]
  · rw [if_neg hdone]
    have hfs : ¬ f stage = StepStatus.completed := by rw [← hst]; exact hdone
    have hs1c : (runStepStart t stp).job.cancelRequested = false := hc
    obtain ⟨hok, hsteps2, hruns2, hc2⟩ := hfn (runStepStart t stp) hs1c
    cases hres : fn (runStepStart t stp) with
    | mk s2 res =>
      rw [hres] at hok hsteps2 hruns2 hc2
      have hres2 : res = Except.ok () := hok
      subst hres2
      simp only [hres]
      have shape1 : stepsShape ((runStepStart t stp).steps)
          (updStatus f stage StepStatus.running) :=
        stepsShape_updateStep t f stage hsh stp.id hid
          { status := some StepStatus.running, startedAt := some (some t.now) }
          StepStatus.running rfl
      have shape2 : stepsShape (s2.steps) (updStatus f stage StepStatus.running) := by
        have hs : s2.steps = (runStepStart t stp).steps := hsteps2
        rw [hs]
        exact shape1
      refine ⟨by trivial, ?_, ?_, ?_⟩
      · rw [steps_saveStepTiming]
        exact stepsShape_congr _ _ _
          (stepsShape_updateStep s2 (updStatus f stage StepStatus.running) stage shape2
            stp.id hid
            { status := some StepStatus.completed
              finishedAt := some (some s2.now)
              durationMs := some (some 0) }
            StepStatus.completed rfl)
          (updStatus_overwrite f stage StepStatus.running StepStatus.completed)
      · rw [runs_saveStepTiming, runs_updateStep]
        have hr : s2.stageFnRuns = (runStepStart t stp).stageFnRuns := hruns2
        have hrs : (runStepStart t stp).stageFnRuns = t.stageFnRuns + 1 := rfl
        rw [hr, hrs, if_neg hfs]
      · rw [job_saveStepTiming, job_updateStep]
        exact hc2

theorem pipeTail5_count (g : Gen) (hg : GenTotal g) (t : St) (f : StepType → StepStatus)
    (hsh : stepsShape t.steps f) (hc : t.job.cancelRequested = false) :
    (pipeTail5 g t).2 = Except.ok () ∧
    (pipeTail5 g t).1.stageFnRuns =
      t.stageFnRuns + (if f StepType.caption = StepStatus.completed then 0 else 1) := by
  obtain ⟨h1, h2, h3, h4, h5⟩ := hg
  obtain ⟨hok, hsh2, hruns2, hc2⟩ :=
    runStep_count StepType.caption (captionFn g) f t hsh hc (captionFn_total g h5)
  have hstep : pipeTail5 g t
      = (St.updateJob (runStep StepType.caption (captionFn g) t).1
          { status := some JobStatus.completed
            progressPercent := some 100
            etaSeconds := some (some 0) }, Except.ok ()) := by
    unfold pipeTail5
    rw [seqE_of_ok _ _ hok]
  rw [hstep]
  exact ⟨rfl, hruns2⟩

theorem pipeTail4_count (g : Gen) (hg : GenTotal g) (t : St) (f : StepType → StepStatus)
    (hsh : stepsShape t.steps f) (hc : t.job.cancelRequested = false) :
    (pipeTail4 g t).2 = Except.ok () ∧
    (pipeTail4 g t).1.stageFnRuns =
      t.stageFnRuns + (if f StepType.video = StepStatus.completed then 0 else 1)
        + (if f StepType.caption = StepStatus.completed then 0 else 1) := by
  obtain ⟨h1, h2, h3, h4, h5⟩ := hg
  obtain ⟨hok, hsh2, hruns2, hc2⟩ :=
    runStep_count StepType.video (videoFn g) f t hsh hc (videoFn_total g h4)
  have hstep : pipeTail4 g t
      = seqE (checkCancel (runStep StepType.video (videoFn g) t).1) (pipeTail5 g) := by
    unfold pipeTail4
    rw [seqE_of_ok _ _ hok]
  rw [hstep, checkCancel_ok _ hc2, seqE_ok]
  obtain ⟨hok5, hruns5⟩ := pipeTail5_count g ⟨h1, h2, h3, h4, h5⟩
    (runStep StepType.video (videoFn g) t).1 (updStatus f StepType.video StepStatus.completed)
    hsh2 hc2
  refine ⟨hok5, ?_⟩
  rw [hruns5, hruns2,
    updStatus_ne f StepType.video StepStatus.completed StepType.caption (by decide)]

theorem pipeTail3_count (g : Gen) (hg : GenTotal g) (t : St) (f : StepType → StepStatus)
    (hsh : stepsShape t.steps f) (hc : t.job.cancelRequested = false) :
    (pipeTail3 g t).2 = Except.ok () ∧
    (pipeTail3 g t).1.stageFnRuns =
      t.stageFnRuns + (if f StepType.audioAssets = StepStatus.completed then 0 else 1)
        + (if f StepType.video = StepStatus.completed then 0 else 1)
        + (if f StepType.caption = StepStatus.completed then 0 else 1) := by
  obtain ⟨h1, h2, h3, h4, h5⟩ := hg
  obtain ⟨hok, hsh2, hruns2, hc2⟩ :=
    runStep_count StepType.audioAssets (audioFn g) f t hsh hc (audioFn_total g h3)
  have hstep : pipeTail3 g t
      = seqE (checkCancel (runStep StepType.audioAssets (audioFn g) t).1) (pipeTail4 g) := by
    unfold pipeTail3
    rw [seqE_of_ok _ _ hok]
  rw [hstep, checkCancel_ok _ hc2, seqE_ok]
  obtain ⟨hok4, hruns4⟩ := pipeTail4_count g ⟨h1, h2, h3, h4, h5⟩
    (runStep StepType.audioAssets (audioFn g) t).1
    (updStatus f StepType.audioAssets StepStatus.completed) hsh2 hc2
  refine ⟨hok4, ?_⟩
  rw [hruns4, hruns2,
    updStatus_ne f StepType.audioAssets StepStatus.completed StepType.video (by decide),
    updStatus_ne f StepType.audioAssets StepStatus.completed StepType.caption (by decide)]

theorem pipeTail2_count (g : Gen) (hg : GenTotal g) (t : St) (f : StepType → StepStatus)
    (hsh : stepsShape t.steps f) (hc : t.job.cancelRequested = false) :
    (pipeTail2 g t).2 = Except.ok () ∧
    (pipeTail2 g t).1.stageFnRuns =
      t.stageFnRuns + (if f StepType.visualAssets = StepStatus.completed then 0 else 1)
        + (if f StepType.audioAssets = StepStatus.completed then 0 else 1)
        + (if f StepType.video = StepStatus.completed then 0 else 1)
        + (if f StepType.caption = StepStatus.completed then 0 else 1) := by
  obtain ⟨h1, h2, h3, h4, h5⟩ := hg
  obtain ⟨hok, hsh2, hruns2, hc2⟩ :=
    runStep_count StepType.visualAssets (visualFn g) f t hsh hc (visualFn_total g h2)
  have hstep : pipeTail2 g t
      = seqE (checkCancel (runStep StepType.visualAssets (visualFn g) t).1)
          (pipeTail3 g) := by
    unfold pipeTail2
    rw [seqE_of_ok _ _ hok]
  rw [hstep, checkCancel_ok _ hc2, seqE_ok]
  obtain ⟨hok3, hruns3⟩ := pipeTail3_count g ⟨h1, h2, h3, h4, h5⟩
    (runStep StepType.visualAssets (visualFn g) t).1
    (updStatus f StepType.visualAssets StepStatus.completed) hsh2 hc2
  refine ⟨hok3, ?_⟩
  rw [hruns3, hruns2,
    updStatus_ne f StepType.visualAssets StepStatus.completed StepType.audioAssets (by decide),
    updStatus_ne f StepType.visualAssets StepStatus.completed StepType.video (by decide),
    updStatus_ne f StepType.visualAssets StepStatus.completed StepType.caption (by decide)]

theorem pipeTail1_count (g : Gen) (hg : GenTotal g) (t : St) (f : StepType → StepStatus)
    (hsh : stepsShape t.steps f) (hc : t.job.cancelRequested = false) :
    (pipeTail1 g t).2 = Except.ok () ∧
    (pipeTail1 g t).1.stageFnRuns =
      t.stageFnRuns + (if f StepType.script = StepStatus.completed then 0 else 1)
        + (if f StepType.visualAssets = StepStatus.completed then 0 else 1)
        + (if f StepType.audioAssets = StepStatus.completed then 0 else 1)
        + (if f StepType.video = StepStatus.completed then 0 else 1)
        + (if f StepType.caption = StepStatus.completed then 0 else 1) := by
  obtain ⟨h1, h2, h3, h4, h5⟩ := hg
  obtain ⟨hok, hsh2, hruns2, hc2⟩ :=
    runStep_count StepType.script (scriptFn g) f t hsh hc (scriptFn_total g h1)
  have hstep : pipeTail1 g t
      = seqE (checkCancel (runStep StepType.script (scriptFn g) t).1) (pipeTail2 g) := by
    unfold pipeTail1
    rw [seqE_of_ok _ _ hok]
  rw [hstep, checkCancel_ok _ hc2, seqE_ok]
  obtain ⟨hok2a, hruns2a⟩ := pipeTail2_count g ⟨h1, h2, h3, h4, h5⟩
    (runStep StepType.script (scriptFn g) t).1
    (updStatus f StepType.script StepStatus.completed) hsh2 hc2
  refine ⟨hok2a, ?_⟩
  rw [hruns2a, hruns2,
    updStatus_ne f StepType.script StepStatus.completed StepType.visualAssets (by decide),
    updStatus_ne f StepType.script StepStatus.completed StepType.audioAssets (by decide),
    updStatus_ne f StepType.script StepStatus.completed StepType.video (by decide),
    updStatus_ne f StepType.script StepStatus.completed StepType.caption (by decide)]

theorem remainingCount_eq (f : StepType → StepStatus) :
    remainingCount f =
      (if f StepType.script = StepStatus.completed then 0 else 1)
      + (if f StepType.visualAssets = StepStatus.completed then 0 else 1)
      + (if f StepType.audioAssets = StepStatus.completed then 0 else 1)
      + (if f StepType.video = StepStatus.completed then 0 else 1)
      + (if f StepType.caption = StepStatus.completed then 0 else 1) := by
  by_cases h1 : f StepType.script = StepStatus.completed <;>
  by_cases h2 : f StepType.visualAssets = StepStatus.completed <;>
  by_cases h3 : f StepType.audioAssets = StepStatus.completed <;>
  by_cases h4 : f StepType.video = StepStatus.completed <;>
  by_cases h5 : f StepType.caption = StepStatus.completed <;>
    simp [remainingCount, stageList, List.filter, h1, h2, h3, h4, h5]

theorem pipelineBody_count (g : Gen) (hg : GenTotal g) (s : St)
    (f : StepType → StepStatus) (hsh : stepsShape s.steps f)
    (hc : s.job.cancelRequested = false) :
    (pipelineBody g s).2 = Except.ok () ∧
    (pipelineBody g s).1.stageFnRuns = s.stageFnRuns + remainingCount f := by
  simp only [pipelineBody]
  set s2 := St.updateLastProgress (St.updateJob { s with ctxScript := none, ctxScenes := none }
    { status := some JobStatus.running
      progressPercent := some 0
      etaSeconds := some (some (initialETA
        ({ s with ctxScript := none, ctxScenes := none } : St).job.settings)) }) with hs2
  have h2c : s2.job.cancelRequested = false := by
    rw [hs2]
    simp [St.updateLastProgress, St.updateJob, applyJobUpdate, hc]
  have h2sh : stepsShape s2.steps f := by
    have hss : s2.steps = s.steps := by
      rw [hs2]
      rfl
    rw [hss]
    exact hsh
  have h2runs : s2.stageFnRuns = s.stageFnRuns := by
    rw [hs2]
    rfl
  rw [checkCancel_ok _ h2c, seqE_ok]
  obtain ⟨hok1, hruns1⟩ := pipeTail1_count g hg s2 f h2sh h2c
  refine ⟨hok1, ?_⟩
  rw [hruns1, h2runs, remainingCount_eq f]
  omega

/-- Claim C1: a step whose record is already completed makes runStep a
pure no-op returning ok for any stage function; consequently, re-invoking
the worker on a job whose five canonical step rows have statuses `f` (with
cancellation clear, the lease free and every external service succeeding)
runs exactly the `remainingCount f = 5 - N` stage functions that are not
yet completed. -/
theorem claim_C1_idempotent_resume :
    (∀ (stage : StepType) (fn : St → St × Except String Unit) (s : St) (stp : JobStep),
      s.steps.find? (fun r => decide (r.stepType = stage)) = some stp →
      stp.status = StepStatus.completed →
      runStep stage fn s = (s, Except.ok ())) ∧
    (∀ (g : Gen) (wk : String) (s : St) (f : StepType → StepStatus),
      GenTotal g → s.steps = mkSteps f → s.job.cancelRequested = false →
      leaseActive s.job s.now = false →
      (processJob g wk s).stageFnRuns = s.stageFnRuns + remainingCount f) := by
  constructor
  · intro stage fn s stp hfind hdone
    simp only [runStep, hfind]
    rw [if_pos hdone]
  · intro g wk s f hg hsteps hc hl
    simp only [processJob]
    have hA : (acquireJobLock s.job wk LEASE_SECONDS s.now).1 = true := by
      simp [acquireJobLock, hl]
    rw [if_pos hA]
    set sIn : St := { s with job := (acquireJobLock s.job wk LEASE_SECONDS s.now).2 }
      with hsIn
    have hInSteps : sIn.steps = mkSteps f := by
      rw [hsIn]
      exact hsteps
    have hInC : sIn.job.cancelRequested = false := by
      rw [hsIn]
      simp [acquireJobLock, hl, hc]
    have hInRuns : sIn.stageFnRuns = s.stageFnRuns := by rw [hsIn]
    have hshIn : stepsShape sIn.steps f := by
      rw [hInSteps]
      exact stepsShape_mkSteps f
    obtain ⟨hok, hruns⟩ := pipelineBody_count g hg sIn f hshIn hInC
    cases hb : pipelineBody g sIn with
    | mk t res =>
      rw [hb] at hok hruns
      have hres : res = Except.ok () := hok
      subst hres
      have hjr : jobCatch (pipelineBody g) sIn = t := by
        simp [jobCatch, hb]
      rw [hjr]
      have hruns2 : t.stageFnRuns = sIn.stageFnRuns + remainingCount f := hruns
      show t.stageFnRuns = s.stageFnRuns + remainingCount f
      rw [hruns2, hInRuns]

/-- Witness for claim C1 at the resumed fixture `st8` (script, visual and
audio completed; video and caption queued): runStep skips the completed
script step, and the resumed run executes exactly the two remaining stage
functions. -/
theorem claim_C1_idempotent_resume_witness :
    runStep StepType.script (scriptFn gen0) st8 = (st8, Except.ok ()) ∧
    (processJob gen0 "w" st8).stageFnRuns = st8.stageFnRuns + remainingCount f8 ∧
    remainingCount f8 = 2 := by
  refine ⟨?_, ?_, by decide⟩
  · exact claim_C1_idempotent_resume.1 StepType.script (scriptFn gen0) st8
      (mkStep 0 StepType.script StepStatus.completed) (by decide) (by decide)
  · exact claim_C1_idempotent_resume.2 gen0 "w" st8 f8
      ⟨⟨("the script", [scene0]), rfl⟩, fun i => ⟨"a prompt", rfl⟩,
        fun i => ⟨2, by norm_num, rfl⟩, ⟨okProbe, okStat, rfl, by decide⟩,
        ⟨("cap", ["tag"]), rfl⟩⟩
      rfl (by decide) (by decide)

end ShortsStudio
